import Mathlib

/-!
# Network traffic monitor: ring store, sampling loop and query engine

A shallow embedding of `main.go`.  The package-level variables `stats` and `sec` become
the fields of `Store`; every function that reads or writes them takes and returns the
store explicitly.  Go `int` values are `Int`, `uint64` values are `Nat` with the
wrap-around written out (`u64add`, `u64sub`, `toUint64`), and the remainder operator of
Go is `Int.tmod` (truncated).  A run-time abort (an index out of range, `log.Fatalf`,
`regexp.MustCompile` on a bad pattern) is the result `none`.
-/

namespace NetMon

/-! ## Constants -/

/-- The constant `window = 300`: number of slots of the ring. -/
def window : Int := 300

/-- The constant `defaultMetricsNumber = 60`. -/
def defaultMetricsNumber : Int := 60

/-- The constant `defaultBaseline = 100`. -/
def defaultBaseline : Int := 100

/-- The array `keys`: the counters kept per sample, in declared order. -/
def keys : List String := ["receive_bytes", "transmit_bytes"]

/-! ## Unsigned 64-bit arithmetic -/

/-- The modulus `2^64` of `uint64`. -/
def u64Mod : Nat := 18446744073709551616

/-- The `uint64` addition `a + b`. -/
def u64add (a b : Nat) : Nat := (a + b) % u64Mod

/-- The `uint64` subtraction `a - b`, wrapping below zero. -/
def u64sub (a b : Nat) : Nat := (((a : Int) - (b : Int)) % (u64Mod : Int)).toNat

/-- The conversion `uint64(k)` of an `int`: the value modulo `2^64`. -/
def toUint64 (k : Int) : Nat := (k % (u64Mod : Int)).toNat

/-! ## The shared state -/

/-- The variables `stats` (a `window` by `len(keys)` array of `uint64`, here a function
of slot and counter index whose values outside the array are never read) and `sec`. -/
structure Store where
  stats : Nat → Nat → Nat
  sec : Int

/-- The state at program start: a zeroed array and `sec = 0`. -/
def initStore : Store := ⟨fun _ _ => 0, 0⟩

/-- The array read `stats[x]`: aborts when `x` is outside `[0, window)`. -/
def readSlot (stats : Nat → Nat → Nat) (x : Int) : Option (Nat → Nat) :=
  if 0 ≤ x ∧ x < window then some (stats x.toNat) else none

/-- The array write `stats[x][i] = v`: aborts when `x` is outside `[0, window)`. -/
def writeCell (stats : Nat → Nat → Nat) (x : Int) (i v : Nat) : Option (Nat → Nat → Nat) :=
  if 0 ≤ x ∧ x < window then
    some (fun j k => if j = x.toNat ∧ k = i then v else stats j k)
  else none

/-- The values taken by `j` in `for j := lo; j < hi; j++`, in order. -/
def forRange (lo hi : Int) : List Int :=
  (List.range (hi - lo).toNat).map (fun (i : Nat) => lo + (i : Int))

/-! ## Statistics source -/

/-- The type `netDevStats`, `map[string]map[string]uint64`, as a partial function. -/
abbrev NetDevStats := String → Option (String → Option Nat)

/-- The double map index `S[dev][k]`: a missing device or a missing counter reads as the
zero value. -/
def lookupStat (S : NetDevStats) (dev k : String) : Nat :=
  match S dev with
  | none => 0
  | some m => (m k).getD 0

/-! ## Query engine -/

/-- One output line of `rawMetrics`, the format `"%d %s %v\n"`. -/
def rawLine (x : Int) (k : String) (v : Nat) : String :=
  toString x ++ " " ++ k ++ " " ++ toString v ++ "\n"

/-- The body of the loop of `rawMetrics` for one value of `j`, appending to `buf`; `read`
is the array access `stats[x]`. -/
def rawStep (read : Int → Option (Nat → Nat)) (buf : String) (j : Int) : Option String :=
  let x := Int.tmod (j + window) window
  match read x with
  | none => none
  | some stat => some (keys.enum.foldl (fun b ik => b ++ rawLine x ik.2 (stat ik.1)) buf)

/-- The body of `rawMetrics(n)` with the cursor `sec` and the array access `read` as
arguments; the `nil` result is the empty string. -/
def rawMetricsWith (read : Int → Option (Nat → Nat)) (sec n : Int) : Option String :=
  if 0 ≥ n ∨ n ≥ window then some ""
  else (forRange (sec - n) sec).foldlM (rawStep read) ""

/-- The method `rawMetrics(n)` on the shared state. -/
def rawMetrics (s : Store) (n : Int) : Option String :=
  rawMetricsWith (readSlot s.stats) s.sec n

/-- The inner loop of `baselineMetrics`: `bytesTotalGradient` for one pair of slots. -/
def gradient (stat prevStat : Nat → Nat) : Nat :=
  (List.range keys.length).foldl (fun g i => u64add g (u64sub (stat i) (prevStat i))) 0

/-- The body of the loop of `baselineMetrics` for one value of `j`; the accumulator is
`(countAboveBaseline, countAreaAboveBaseline)` and `read` is the array access. -/
def baselineStep (read : Int → Option (Nat → Nat)) (baseline : Int) (acc : Nat × Nat)
    (j : Int) : Option (Nat × Nat) :=
  let x := Int.tmod (j + window) window
  match read x with
  | none => none
  | some stat =>
    let prevX := Int.tmod (j - 1 + window) window
    match read prevX with
    | none => none
    | some prevStat =>
      let g := gradient stat prevStat
      if g > toUint64 baseline then
        some (acc.1 + 1, u64add acc.2 (u64sub g (toUint64 baseline)))
      else some acc

/-- The loop of `baselineMetrics`: the pair `(countAboveBaseline, countAreaAboveBaseline)`
it leaves behind.  The count is incremented fewer than `window` times, so it is kept as a
natural number. -/
def baselineLoop (read : Int → Option (Nat → Nat)) (sec baseline n : Int) :
    Option (Nat × Nat) :=
  (forRange (sec - n) sec).foldlM (baselineStep read baseline) (0, 0)

/-- The two `Fprintf` calls that end `baselineMetrics`. -/
def renderBaseline (r : Nat × Nat) : String :=
  "" ++ ("above_baseline_count " ++ toString r.1 ++ "\n")
    ++ ("above_baseline_area_sum " ++ toString r.2 ++ "\n")

/-- The body of `baselineMetrics(baseline, n)` with the cursor and the array access as
arguments; the `nil` result is the empty string. -/
def baselineMetricsWith (read : Int → Option (Nat → Nat)) (sec baseline n : Int) :
    Option String :=
  if 0 ≥ n ∨ n ≥ window then some ""
  else (baselineLoop read sec baseline n).map renderBaseline

/-- The method `baselineMetrics(baseline, n)` on the shared state. -/
def baselineMetrics (s : Store) (baseline n : Int) : Option String :=
  baselineMetricsWith (readSlot s.stats) s.sec baseline n

/-- The figures `(above_baseline_count, above_baseline_area_sum)` that
`baselineMetrics(baseline, n)` prints; `none` when it prints none (range error or abort). -/
def baselineAgg (s : Store) (baseline n : Int) : Option (Nat × Nat) :=
  if 0 ≥ n ∨ n ≥ window then none
  else baselineLoop (readSlot s.stats) s.sec baseline n

/-! ## Sampling loop -/

/-- The loop `for i, k := range keys { stats[x][i] = S[dev][k] }`. -/
def storeKeys (stats : Nat → Nat → Nat) (x : Int) (S : NetDevStats) (dev : String) :
    Option (Nat → Nat → Nat) :=
  keys.enum.foldlM (fun st ik => writeCell st x ik.1 (lookupStat S dev ik.2)) stats

/-- The priming step of `startUpdaterLoop`: one fetch (`none` when it fails, which ends in
`log.Fatalf`), then every slot is filled from it.  The cursor is not touched. -/
def prime (dev : String) (fetched : Option NetDevStats) (s : Store) : Option Store :=
  match fetched with
  | none => none
  | some S =>
    ((forRange 0 window).foldlM (fun st j => storeKeys st j S dev) s.stats).map
      (fun st => ⟨st, s.sec⟩)

/-- One iteration of the ticker loop of `startUpdaterLoop` that was not cancelled, at
wall-clock second `now` (`time.Now().Unix()`), with the result of the fetch. -/
def tick (dev : String) (now : Int) (fetched : Option NetDevStats) (s : Store) :
    Option Store :=
  match fetched with
  | none => none
  | some S =>
    let sec := Int.tmod now window
    match storeKeys s.stats sec S dev with
    | none => none
    | some st => some ⟨st, Int.tmod (sec + 1) window⟩

/-- The ticker loop run over a finite list of ticks, each with its wall-clock second and
fetch result. -/
def runLoop (dev : String) : List (Int × Option NetDevStats) → Store → Option Store
  | [], s => some s
  | tk :: rest, s =>
    match tick dev tk.1 tk.2 s with
    | none => none
    | some s1 => runLoop dev rest s1

/-- Ticks at the consecutive seconds `t0, t0 + 1, ...`, all with a successful fetch. -/
def consecutiveTicks : Int → List NetDevStats → List (Int × Option NetDevStats)
  | _, [] => []
  | t0, f :: fs => (t0, some f) :: consecutiveTicks (t0 + 1) fs

/-! ## Device filter -/

/-- A compiled `*regexp.Regexp`, known only through `MatchString`. -/
structure Regexp where
  matchString : String → Bool

/-- The type `deviceFilter`; a `nil` pattern is `none`. -/
structure DeviceFilter where
  ignorePattern : Option Regexp
  acceptPattern : Option Regexp

/-- The constructor `newDeviceFilter`; `compile` is `regexp.MustCompile`, whose failure on
an invalid pattern is `none`. -/
def newDeviceFilter (compile : String → Option Regexp) (ignoredPattern acceptPattern : String) :
    Option DeviceFilter :=
  let f0 : DeviceFilter := ⟨none, none⟩
  let step1 : Option DeviceFilter :=
    if ignoredPattern ≠ "" then
      (compile ignoredPattern).map (fun r => ⟨some r, f0.acceptPattern⟩)
    else some f0
  match step1 with
  | none => none
  | some f1 =>
    if acceptPattern ≠ "" then
      (compile acceptPattern).map (fun r => ⟨f1.ignorePattern, some r⟩)
    else some f1

/-- The method `ignored(name)`. -/
def DeviceFilter.ignored (f : DeviceFilter) (name : String) : Bool :=
  (match f.ignorePattern with
    | none => false
    | some r => r.matchString name) ||
  (match f.acceptPattern with
    | none => false
    | some r => !(r.matchString name))

/-! ## HTTP handler -/

/-- The method `ServeHTTP`: the body written for a request with the given path, where
`query` is `r.URL.Query().Get` (the empty string for an absent parameter) and `atoi` is
`strconv.Atoi` (`none` when it returns an error).  A failed `Write` is only logged. -/
def serveHTTP (atoi : String → Option Int) (s : Store) (path : String)
    (query : String → String) : Option String :=
  if path = "/raw" then
    let n := match atoi (query "n") with
      | some v => v
      | none => defaultMetricsNumber
    rawMetrics s n
  else if path = "/metrics" then
    let k := match atoi (query "baseline") with
      | some v => v
      | none => defaultBaseline
    let n := match atoi (query "n") with
      | some v => v
      | none => defaultMetricsNumber
    baselineMetrics s k n
  else some ""

/-- A call of one of the two read methods. -/
inductive Query where
  | raw (n : Int)
  | baseline (k n : Int)

/-- A read method run on the shared state, returning its output and the state it leaves:
neither method assigns to `stats` or `sec`. -/
def runQuery (s : Store) : Query → Option String × Store
  | Query.raw n => (rawMetrics s n, s)
  | Query.baseline k n => (baselineMetrics s k n, s)

/-! ## Statistics adapter -/

/-- Modelled from the spec: the type `rtnetlink.LinkStats64`, declared outside this
repository; the named counters of one interface, all unsigned 64-bit. -/
structure LinkStats64 where
  RXPackets : Nat
  TXPackets : Nat
  RXBytes : Nat
  TXBytes : Nat
  RXErrors : Nat
  TXErrors : Nat
  RXDropped : Nat
  TXDropped : Nat
  Multicast : Nat
  Collisions : Nat
  RXLengthErrors : Nat
  RXOverErrors : Nat
  RXCRCErrors : Nat
  RXFrameErrors : Nat
  RXFIFOErrors : Nat
  RXMissedErrors : Nat
  TXAbortedErrors : Nat
  TXCarrierErrors : Nat
  TXFIFOErrors : Nat
  TXHeartbeatErrors : Nat
  TXWindowErrors : Nat
  RXCompressed : Nat
  TXCompressed : Nat
  RXNoHandler : Nat

/-- Modelled from the spec: the type `rtnetlink.LinkAttributes`, declared outside this
repository, reduced to the two fields that `parseNetlinkStats` reads. -/
structure LinkAttributes where
  Name : String
  Stats64 : LinkStats64

/-- Modelled from the spec: the type `rtnetlink.LinkMessage`, declared outside this
repository, reduced to its attributes. -/
structure LinkMessage where
  Attributes : LinkAttributes

/-- The map literal that `parseNetlinkStats` stores for one device. -/
def statsEntry (stats : LinkStats64) : String → Option Nat :=
  fun k =>
    if k = "receive_packets" then some stats.RXPackets
    else if k = "transmit_packets" then some stats.TXPackets
    else if k = "receive_bytes" then some stats.RXBytes
    else if k = "transmit_bytes" then some stats.TXBytes
    else if k = "receive_errors" then some stats.RXErrors
    else if k = "transmit_errors" then some stats.TXErrors
    else if k = "receive_dropped" then some stats.RXDropped
    else if k = "transmit_dropped" then some stats.TXDropped
    else if k = "multicast" then some stats.Multicast
    else if k = "collisions" then some stats.Collisions
    else if k = "receive_length_errors" then some stats.RXLengthErrors
    else if k = "receive_over_errors" then some stats.RXOverErrors
    else if k = "receive_crc_errors" then some stats.RXCRCErrors
    else if k = "receive_frame_errors" then some stats.RXFrameErrors
    else if k = "receive_fifo_errors" then some stats.RXFIFOErrors
    else if k = "receive_missed_errors" then some stats.RXMissedErrors
    else if k = "transmit_aborted_errors" then some stats.TXAbortedErrors
    else if k = "transmit_carrier_errors" then some stats.TXCarrierErrors
    else if k = "transmit_fifo_errors" then some stats.TXFIFOErrors
    else if k = "transmit_heartbeat_errors" then some stats.TXHeartbeatErrors
    else if k = "transmit_window_errors" then some stats.TXWindowErrors
    else if k = "receive_compressed" then some stats.RXCompressed
    else if k = "transmit_compressed" then some stats.TXCompressed
    else if k = "receive_nohandler" then some stats.RXNoHandler
    else none

/-- The function `parseNetlinkStats`: the map built by the loop over the links, an
assignment `metrics[name] = ...` replacing any earlier entry for the same name. -/
def parseNetlinkStats (links : List LinkMessage) (filter : DeviceFilter) : NetDevStats :=
  links.foldl
    (fun metrics msg =>
      let name := msg.Attributes.Name
      let stats := msg.Attributes.Stats64
      if filter.ignored name then metrics
      else fun d => if d = name then some (statsEntry stats) else metrics d)
    (fun _ => none)

/-! ## Specification-side definitions -/

/-- The two lines `rawMetrics` prints for slot `x`: one per counter, in declared order. -/
def rawBlock (stats : Nat → Nat → Nat) (x : Int) : String :=
  rawLine x "receive_bytes" (stats x.toNat 0) ++ rawLine x "transmit_bytes" (stats x.toNat 1)

/-- The index `(sec - n + i) mod W` under which the `i`-th of the `n` most recent
snapshots is rendered. -/
def rawIndex (s : Store) (n : Int) (i : Nat) : Int := (s.sec - n + (i : Int)) % window

/-- Line number `k` of the output of `rawMetrics(n)`: counter `k mod 2` of snapshot
`k / 2`. -/
def rawOutputLine (s : Store) (n : Int) (k : Nat) : String :=
  rawLine (rawIndex s n (k / 2)) (if k % 2 = 0 then "receive_bytes" else "transmit_bytes")
    (s.stats (rawIndex s n (k / 2)).toNat (k % 2))

/-- A newline-terminated line: some text without a newline, followed by one newline. -/
def IsLine (l : String) : Prop := ∃ body : String, l = body ++ "\n" ∧ '\n' ∉ body.data

/-- A store holding the two snapshots of the documented example at slots 267 and 268,
with the cursor at 269. -/
def exampleStore : Store :=
  ⟨fun j i =>
      if j = 267 then (if i = 0 then 19305901433 else 9003338538)
      else if j = 268 then (if i = 0 then 19305902078 else 9003338768)
      else 0,
    269⟩

/-- Sum of the counters of the snapshot held at slot `x`. -/
def snapshotSum (stats : Nat → Nat → Nat) (x : Int) : Nat :=
  ((List.range keys.length).map (stats x.toNat)).sum

/-- The gradient `g_j` as the specification words it: the difference of the summed counters
of the snapshots at `j mod W` and `(j - 1) mod W`, taken modulo `2^64`. -/
def specGradient (s : Store) (j : Int) : Int :=
  ((snapshotSum s.stats (j % window) : Int) - (snapshotSum s.stats ((j - 1) % window) : Int))
    % (u64Mod : Int)

/-- The `j` in `[sec - n, sec)` whose gradient exceeds the threshold `t`. -/
def specExceeding (s : Store) (t n : Int) : List Int :=
  (forRange (s.sec - n) s.sec).filter (fun j => decide (t < specGradient s j))

/-- The figure `above_baseline_count` as specified: how many gradients exceed `t`. -/
def specCount (s : Store) (t n : Int) : Nat := (specExceeding s t n).length

/-- The figure `above_baseline_area_sum` as specified: the sum of `g_j - t` over the
exceeding `j`, modulo `2^64`. -/
def specArea (s : Store) (t n : Int) : Int :=
  ((specExceeding s t n).map (fun j => specGradient s j - t)).sum % (u64Mod : Int)

/-- A store after a counter reset: slot 0 holds `(1000, 0)`, slot 1 holds `(0, 0)` (the
counter was reset), slot 2 holds `(1000, 0)` again; the cursor is at 3. -/
def resetStore : Store :=
  ⟨fun j i => if (j = 0 ∨ j = 2) ∧ i = 0 then 1000 else 0, 3⟩

/-- The array after the snapshot of `dev` in `S` was stored at slot `p`. -/
def slotWritten (stats : Nat → Nat → Nat) (p : Nat) (S : NetDevStats) (dev : String) :
    Nat → Nat → Nat :=
  fun j k =>
    if j = p ∧ k = 1 then lookupStat S dev "transmit_bytes"
    else if j = p ∧ k = 0 then lookupStat S dev "receive_bytes"
    else stats j k

/-- A statistics source that reports no device at all. -/
def noDevices : NetDevStats := fun _ => none

/-- The array after the snapshots of the fetches `fs` were stored at the slots of the
consecutive seconds `t0, t0 + 1, ...`. -/
def runStats (dev : String) : Int → List NetDevStats → (Nat → Nat → Nat) → (Nat → Nat → Nat)
  | _, [], st => st
  | t0, f :: fs, st => runStats dev (t0 + 1) fs (slotWritten st (t0 % window).toNat f dev)

/-- The two lines that render the snapshot of `dev` in the fetch `S` under index `x`. -/
def fetchBlock (x : Int) (S : NetDevStats) (dev : String) : String :=
  rawLine x "receive_bytes" (lookupStat S dev "receive_bytes")
    ++ rawLine x "transmit_bytes" (lookupStat S dev "transmit_bytes")

/-- A fetch result that reports the single device `dev` with the given byte counters. -/
def singleDevice (dev : String) (rx tx : Nat) : NetDevStats :=
  fun d =>
    if d = dev then
      some (fun c =>
        if c = "receive_bytes" then some rx
        else if c = "transmit_bytes" then some tx
        else none)
    else none

/-- The ten fetches of the end-to-end scenario: the `k`-th (from 1) reports
`receive_bytes = 50 k` and `transmit_bytes = 50 k`. -/
def rampFetches (dev : String) : List NetDevStats :=
  (List.range 10).map (fun i => singleDevice dev (50 * (i + 1)) (50 * (i + 1)))

/-- A run of 301 fetches, the `k`-th (from 1) reporting `receive_bytes = k` and
`transmit_bytes = 2 k`. -/
def longRun (dev : String) : List NetDevStats :=
  (List.range 301).map (fun i => singleDevice dev (i + 1) (2 * (i + 1)))

/-- A stand-in for `strconv.Atoi` on the few strings used in the examples; every other
string, the empty one included, is rejected. -/
def tableAtoi (s : String) : Option Int :=
  if s = "2" then some 2
  else if s = "300" then some 300
  else if s = "1000" then some 1000
  else none

/-- Two link messages for `eth0` around one for `lo`, with distinct byte counters. -/
def exampleLinks : List LinkMessage :=
  [⟨⟨"eth0", ⟨100, 101, 10, 20, 104, 105, 106, 107, 108, 109, 110, 111, 112, 113, 114, 115, 116, 117, 118, 119, 120, 121, 122, 123⟩⟩⟩,
   ⟨⟨"lo", ⟨200, 201, 1, 2, 204, 205, 206, 207, 208, 209, 210, 211, 212, 213, 214, 215, 216, 217, 218, 219, 220, 221, 222, 223⟩⟩⟩,
   ⟨⟨"eth0", ⟨300, 301, 30, 40, 304, 305, 306, 307, 308, 309, 310, 311, 312, 313, 314, 315, 316, 317, 318, 319, 320, 321, 322, 323⟩⟩⟩]

/-- The last of the `eth0` messages of `exampleLinks`. -/
def exampleLastEth0 : LinkMessage :=
  ⟨⟨"eth0", ⟨300, 301, 30, 40, 304, 305, 306, 307, 308, 309, 310, 311, 312, 313, 314, 315, 316, 317, 318, 319, 320, 321, 322, 323⟩⟩⟩

/-- The counter sum of the snapshot of `dev` in the fetch `S`. -/
def snapSum (S : NetDevStats) (dev : String) : Nat :=
  lookupStat S dev "receive_bytes" + lookupStat S dev "transmit_bytes"

/-- The snapshot `s_k` of a run: `s_0` is the priming fetch, `s_k` the fetch of tick `k`. -/
def snapAt (S0 : NetDevStats) (fetches : List NetDevStats) (k : Nat) : NetDevStats :=
  (S0 :: fetches).getD k noDevices

/-- The exact differences `sum(s_k) - sum(s_{k-1})` for `k = 1, ..., m`, in this order. -/
def snapDiffs (dev : String) (S0 : NetDevStats) (fetches : List NetDevStats) : List Int :=
  (List.range fetches.length).map (fun (i : Nat) =>
    (snapSum (snapAt S0 fetches (i + 1)) dev : Int) - (snapSum (snapAt S0 fetches i) dev : Int))

/-- The differences for the `k` with `max(1, m - n + 1) <= k <= m`: the last `n` of them,
or all of them when there are fewer than `n`. -/
def recentDiffs (dev : String) (S0 : NetDevStats) (fetches : List NetDevStats) (n : Int) :
    List Int :=
  (snapDiffs dev S0 fetches).drop (fetches.length - n.toNat)

/-- Three fetches with growing counters, after a priming fetch of `(100, 100)`. -/
def growingFetches (dev : String) : List NetDevStats :=
  [singleDevice dev 150 100, singleDevice dev 150 400, singleDevice dev 200 400]

/-! ## Auxiliary facts: remainders, loops, strings -/

theorem tmod_window (j : Int) (h : 0 ≤ j + window) :
    Int.tmod (j + window) window = j % window := by
  rw [Int.tmod_eq_emod h (by decide)]
  unfold window
  omega

theorem mem_forRange (lo hi j : Int) : j ∈ forRange lo hi ↔ lo ≤ j ∧ j < hi := by
  unfold forRange
  simp only [List.mem_map, List.mem_range]
  constructor
  · rintro ⟨i, hi1, hi2⟩
    have hi3 : lo + (i : Int) = j := hi2
    omega
  · rintro ⟨h1, h2⟩
    refine ⟨(j - lo).toNat, by omega, ?_⟩
    show lo + ((j - lo).toNat : Int) = j
    omega

theorem forRange_eq_map (lo : Int) (n : Nat) :
    forRange lo (lo + n) = (List.range n).map (fun (i : Nat) => lo + (i : Int)) := by
  unfold forRange
  have : (lo + (n : Int) - lo).toNat = n := by omega
  rw [this]

theorem join_cons (a : String) (l : List String) :
    String.join (a :: l) = a ++ String.join l := by
  apply String.ext
  simp [String.join_eq]

theorem join_nil : String.join [] = "" := rfl

theorem join_append (l1 l2 : List String) :
    String.join (l1 ++ l2) = String.join l1 ++ String.join l2 := by
  apply String.ext
  simp [String.join_eq]

theorem str_append_assoc (a b c : String) : a ++ b ++ c = a ++ (b ++ c) := by
  apply String.ext
  simp

theorem str_empty_append (a : String) : "" ++ a = a := by
  apply String.ext
  simp

theorem foldlM_some_append {α : Type} (step : String → α → Option String) (f : α → String)
    (l : List α) (h : ∀ a ∈ l, ∀ buf, step buf a = some (buf ++ f a)) (buf : String) :
    l.foldlM step buf = some (buf ++ String.join (l.map f)) := by
  induction l generalizing buf with
  | nil =>
    simp only [List.foldlM_nil, List.map_nil, join_nil]
    congr 1
    apply String.ext
    simp
  | cons a l ih =>
    rw [List.foldlM_cons, h a (List.mem_cons_self a l) buf]
    simp only [Option.bind_eq_bind, Option.some_bind, List.map_cons, join_cons]
    rw [ih (fun b hb => h b (List.mem_cons_of_mem a hb)), str_append_assoc]

theorem rawStep_eq (stats : Nat → Nat → Nat) (buf : String) (j : Int)
    (h1 : -window < j) :
    rawStep (readSlot stats) buf j = some (buf ++ rawBlock stats (j % window)) := by
  have hx : Int.tmod (j + window) window = j % window := tmod_window j (by omega)
  have hr : readSlot stats (j % window) = some (stats (j % window).toNat) := by
    unfold readSlot
    rw [if_pos]
    unfold window
    omega
  unfold rawStep
  simp only [hx, hr]
  simp [keys, List.enum, List.enumFrom, rawBlock, str_append_assoc]

theorem rawMetrics_eq_join (s : Store) (n : Int) (hsec : 0 ≤ s.sec ∧ s.sec < window)
    (hn : 0 < n ∧ n < window) :
    rawMetrics s n = some (String.join ((List.range n.toNat).map
      (fun (i : Nat) => rawBlock s.stats ((s.sec - n + (i : Int)) % window)))) := by
  have hw : window = 300 := rfl
  unfold rawMetrics rawMetricsWith
  rw [if_neg (by omega)]
  rw [foldlM_some_append (rawStep (readSlot s.stats)) (fun j => rawBlock s.stats (j % window))]
  · rw [str_empty_append]
    have hfr := forRange_eq_map (s.sec - n) n.toNat
    rw [show s.sec - n + ((n.toNat : Nat) : Int) = s.sec by omega] at hfr
    rw [hfr, List.map_map]
    rfl
  · intro j hj buf
    rw [mem_forRange] at hj
    exact rawStep_eq s.stats buf j (by omega)

theorem digitChar_ne_newline (d : Nat) (h : d < 10) : Nat.digitChar d ≠ '\n' := by
  interval_cases d <;> decide

theorem toDigitsCore_no_newline (fuel : Nat) : ∀ (m : Nat) (ds : List Char),
    '\n' ∉ ds → '\n' ∉ Nat.toDigitsCore 10 fuel m ds := by
  induction fuel with
  | zero => intro m ds h; simpa [Nat.toDigitsCore] using h
  | succ f ih =>
    intro m ds h
    have hd : '\n' ∉ Nat.digitChar (m % 10) :: ds := by
      intro hc
      rcases List.mem_cons.mp hc with h1 | h1
      · exact digitChar_ne_newline (m % 10) (Nat.mod_lt _ (by decide)) h1.symm
      · exact h h1
    unfold Nat.toDigitsCore
    by_cases h0 : m / 10 = 0
    · simpa [h0] using hd
    · simp only [h0, if_false]
      exact ih _ _ hd

theorem natRepr_no_newline (m : Nat) : '\n' ∉ (toString m).data := by
  show '\n' ∉ (Nat.repr m).data
  unfold Nat.repr Nat.toDigits
  exact toDigitsCore_no_newline _ _ _ (by simp)

theorem rawLine_isLine (x : Int) (hx : 0 ≤ x) (k : String) (hk : '\n' ∉ k.data) (v : Nat) :
    IsLine (rawLine x k v) := by
  refine ⟨toString x ++ " " ++ k ++ " " ++ toString v, rfl, ?_⟩
  obtain ⟨m, rfl⟩ := Int.eq_ofNat_of_zero_le hx
  have h1 : toString ((m : Nat) : Int) = toString m := rfl
  rw [h1]
  have h2 := natRepr_no_newline m
  have h3 := natRepr_no_newline v
  simp only [String.data_append, List.mem_append, not_or]
  refine ⟨⟨⟨⟨h2, by decide⟩, hk⟩, by decide⟩, h3⟩

theorem join_pairs (g : Nat → String) (n : Nat) :
    String.join ((List.range (2 * n)).map g) =
      String.join ((List.range n).map (fun i => g (2 * i) ++ g (2 * i + 1))) := by
  induction n with
  | zero => rfl
  | succ n ih =>
    have h2 : 2 * (n + 1) = (2 * n + 1) + 1 := by ring
    rw [h2, List.range_succ, List.range_succ, List.range_succ]
    simp only [List.map_append, List.map_cons, List.map_nil, join_append, join_cons, join_nil]
    rw [ih]
    apply String.ext
    simp

theorem rawIndex_bounds (s : Store) (n : Int) (i : Nat) :
    0 ≤ rawIndex s n i ∧ rawIndex s n i < window := by
  unfold rawIndex window
  omega

theorem rawMetrics_eq_lines (s : Store) (n : Int) (hsec : 0 ≤ s.sec ∧ s.sec < window)
    (hn : 0 < n ∧ n < window) :
    rawMetrics s n = some (String.join ((List.range (2 * n.toNat)).map (rawOutputLine s n))) := by
  rw [rawMetrics_eq_join s n hsec hn, join_pairs]
  congr 3
  funext i
  have e1 : 2 * i / 2 = i := by omega
  have e2 : (2 * i + 1) / 2 = i := by omega
  have e3 : 2 * i % 2 = 0 := by omega
  have e4 : (2 * i + 1) % 2 = 1 := by omega
  simp only [rawOutputLine, rawBlock, rawIndex, e1, e2, e3, e4]
  rfl

theorem gradient_eq (stats : Nat → Nat → Nat) (x y : Int) :
    ((gradient (stats x.toNat) (stats y.toNat) : Nat) : Int)
      = ((snapshotSum stats x : Int) - (snapshotSum stats y : Int)) % (u64Mod : Int) := by
  simp only [gradient, snapshotSum, keys, List.length_cons, List.length_nil, List.range_succ,
    List.range_zero, List.nil_append, List.foldl_append, List.foldl_cons, List.foldl_nil,
    List.map_append, List.map_cons, List.map_nil, List.sum_append, List.sum_cons, List.sum_nil,
    u64add, u64sub, u64Mod]
  push_cast
  omega

theorem gradient_lt (stat prevStat : Nat → Nat) : gradient stat prevStat < u64Mod := by
  simp only [gradient, keys, List.length_cons, List.length_nil, List.range_succ,
    List.range_zero, List.nil_append, List.foldl_append, List.foldl_cons, List.foldl_nil,
    u64add, u64Mod]
  omega

theorem toUint64_of_nonneg (t : Int) (h0 : 0 ≤ t) (h1 : t < 9223372036854775808) :
    ((toUint64 t : Nat) : Int) = t := by
  unfold toUint64 u64Mod
  omega

theorem baselineStep_eq (s : Store) (t : Int) (h0 : 0 ≤ t) (h1 : t < 9223372036854775808)
    (acc : Nat × Nat) (j : Int) (hj : -window < j) :
    baselineStep (readSlot s.stats) t acc j =
      some (if t < specGradient s j then
        (acc.1 + 1, ((acc.2 + (specGradient s j - t).toNat) % u64Mod)) else acc) := by
  have hw : window = 300 := rfl
  have hx : Int.tmod (j + window) window = j % window := tmod_window j (by omega)
  have hp : Int.tmod (j - 1 + window) window = (j - 1) % window := tmod_window (j - 1) (by omega)
  have hr : ∀ y : Int, readSlot s.stats (y % window) = some (s.stats (y % window).toNat) := by
    intro y
    unfold readSlot
    rw [if_pos]
    rw [hw]
    omega
  have hg := gradient_eq s.stats (j % window) ((j - 1) % window)
  have hlt := gradient_lt (s.stats (j % window).toNat) (s.stats ((j - 1) % window).toNat)
  have hT := toUint64_of_nonneg t h0 h1
  unfold baselineStep
  simp only [hx, hp, hr]
  unfold specGradient
  rw [← hg]
  generalize gradient (s.stats (j % window).toNat) (s.stats ((j - 1) % window).toNat) = g at hlt
  generalize toUint64 t = T at hT
  subst hT
  by_cases hc : g > T
  · rw [if_pos hc, if_pos (by omega)]
    congr 2
    unfold u64add u64sub
    unfold u64Mod at hlt ⊢
    omega
  · rw [if_neg hc, if_neg (by omega)]

theorem baselineFold_eq (s : Store) (t : Int) (h0 : 0 ≤ t) (h1 : t < 9223372036854775808)
    (l : List Int) (hl : ∀ j ∈ l, -window < j) (acc : Nat × Nat) (ha : acc.2 < u64Mod) :
    l.foldlM (baselineStep (readSlot s.stats) t) acc =
      some (acc.1 + (l.filter (fun j => decide (t < specGradient s j))).length,
        (((acc.2 : Int) + ((l.filter (fun j => decide (t < specGradient s j))).map
          (fun j => specGradient s j - t)).sum) % (u64Mod : Int)).toNat) := by
  induction l generalizing acc with
  | nil =>
    simp only [List.foldlM_nil, List.filter_nil, List.length_nil, List.map_nil, List.sum_nil]
    unfold u64Mod at ha ⊢
    show some acc = _
    congr 1
    apply Prod.ext
    · simp
    · show acc.2 = _
      omega
  | cons j l ih =>
    have hj := hl j (List.mem_cons_self j l)
    have hl2 : ∀ k ∈ l, -window < k := fun k hk => hl k (List.mem_cons_of_mem j hk)
    rw [List.foldlM_cons, baselineStep_eq s t h0 h1 acc j hj]
    simp only [Option.bind_eq_bind, Option.some_bind]
    by_cases hc : t < specGradient s j
    · rw [if_pos hc, ih hl2 _ (Nat.mod_lt _ (by decide))]
      rw [List.filter_cons_of_pos (by simpa using hc)]
      simp only [List.length_cons, List.map_cons, List.sum_cons]
      congr 1
      apply Prod.ext
      · show acc.1 + 1 + _ = acc.1 + (_ + 1)
        omega
      · show Int.toNat _ = Int.toNat _
        generalize (List.map (fun j => specGradient s j - t)
          (List.filter (fun j => decide (t < specGradient s j)) l)).sum = S
        unfold u64Mod
        push_cast
        omega
    · rw [if_neg hc, ih hl2 _ ha]
      rw [List.filter_cons_of_neg (by simpa using hc)]

theorem baselineLoop_eq (s : Store) (t n : Int) (hsec : 0 ≤ s.sec ∧ s.sec < window)
    (hn : 0 < n ∧ n < window) (h0 : 0 ≤ t) (h1 : t < 9223372036854775808) :
    baselineLoop (readSlot s.stats) s.sec t n = some (specCount s t n, (specArea s t n).toNat) := by
  unfold baselineLoop
  rw [baselineFold_eq s t h0 h1 _ _ (0, 0) (by decide)]
  · simp [specCount, specArea, specExceeding]
  · intro j hj
    rw [mem_forRange] at hj
    omega

theorem exceeding_sum_mono (G : Int → Int) (t1 t2 : Int) (h : t1 ≤ t2) (l : List Int) :
    0 ≤ ((l.filter (fun j => decide (t2 < G j))).map (fun j => G j - t2)).sum ∧
    ((l.filter (fun j => decide (t2 < G j))).map (fun j => G j - t2)).sum
      ≤ ((l.filter (fun j => decide (t1 < G j))).map (fun j => G j - t1)).sum := by
  induction l with
  | nil => simp
  | cons j l ih =>
    by_cases c2 : t2 < G j
    · have c1 : t1 < G j := by omega
      rw [List.filter_cons_of_pos (by simpa using c2), List.filter_cons_of_pos (by simpa using c1)]
      simp only [List.map_cons, List.sum_cons]
      omega
    · rw [List.filter_cons_of_neg (by simpa using c2)]
      by_cases c1 : t1 < G j
      · rw [List.filter_cons_of_pos (by simpa using c1)]
        simp only [List.map_cons, List.sum_cons]
        omega
      · rw [List.filter_cons_of_neg (by simpa using c1)]
        exact ih

theorem exceeding_length_mono (G : Int → Int) (t1 t2 : Int) (h : t1 ≤ t2) (l : List Int) :
    (l.filter (fun j => decide (t2 < G j))).length
      ≤ (l.filter (fun j => decide (t1 < G j))).length := by
  apply List.Sublist.length_le
  apply List.monotone_filter_right
  intro j hj
  have h2 : t2 < G j := by simpa using hj
  have h1 : t1 < G j := by omega
  simpa using h1

theorem baselineAgg_eq (s : Store) (t n : Int) (hsec : 0 ≤ s.sec ∧ s.sec < window)
    (hn : 0 < n ∧ n < window) (h0 : 0 ≤ t) (h1 : t < 9223372036854775808) :
    baselineAgg s t n = some (specCount s t n, (specArea s t n).toNat) := by
  have hw : window = 300 := rfl
  unfold baselineAgg
  rw [if_neg (by omega), baselineLoop_eq s t n hsec hn h0 h1]

theorem storeKeys_eq (stats : Nat → Nat → Nat) (x : Int) (S : NetDevStats) (dev : String)
    (hx : 0 ≤ x ∧ x < window) :
    storeKeys stats x S dev = some (slotWritten stats x.toNat S dev) := by
  simp only [storeKeys, keys, List.enum, List.enumFrom, List.foldlM_cons, List.foldlM_nil,
    writeCell, if_pos hx, Option.bind_eq_bind, Option.some_bind, Option.pure_def]
  rfl

theorem tick_eq (dev : String) (now : Int) (S : NetDevStats) (s : Store) (h : 0 ≤ now) :
    tick dev now (some S) s
      = some ⟨slotWritten s.stats (now % window).toNat S dev, (now % window + 1) % window⟩ := by
  have hw : window = 300 := rfl
  have hb : 0 ≤ now % window ∧ now % window < window := by
    rw [hw]
    omega
  have e1 : Int.tmod now window = now % window := Int.tmod_eq_emod h (by decide)
  have e2 : Int.tmod (now % window + 1) window = (now % window + 1) % window :=
    Int.tmod_eq_emod (by omega) (by decide)
  unfold tick
  simp only [e1, e2]
  rw [storeKeys_eq _ _ _ _ hb]

theorem primeFold_eq (S : NetDevStats) (dev : String) (l : List Int)
    (hl : ∀ j ∈ l, 0 ≤ j ∧ j < window) (stats : Nat → Nat → Nat) :
    l.foldlM (fun st j => storeKeys st j S dev) stats
      = some (l.foldl (fun st j => slotWritten st j.toNat S dev) stats) := by
  induction l generalizing stats with
  | nil => rfl
  | cons j l ih =>
    rw [List.foldlM_cons, storeKeys_eq _ _ _ _ (hl j (List.mem_cons_self j l))]
    simp only [Option.bind_eq_bind, Option.some_bind, List.foldl_cons]
    exact ih (fun k hk => hl k (List.mem_cons_of_mem j hk)) _

theorem primeFold_keeps (S : NetDevStats) (dev : String) (p : Nat) (l : List Int)
    (stats : Nat → Nat → Nat)
    (h : stats p 0 = lookupStat S dev "receive_bytes" ∧
      stats p 1 = lookupStat S dev "transmit_bytes") :
    (l.foldl (fun st j => slotWritten st j.toNat S dev) stats) p 0
        = lookupStat S dev "receive_bytes" ∧
    (l.foldl (fun st j => slotWritten st j.toNat S dev) stats) p 1
        = lookupStat S dev "transmit_bytes" := by
  induction l generalizing stats with
  | nil => exact h
  | cons j l ih =>
    rw [List.foldl_cons]
    apply ih
    unfold slotWritten
    constructor
    · by_cases hp : p = j.toNat <;> simp [hp, h.1]
    · by_cases hp : p = j.toNat <;> simp [hp, h.2]

theorem primeFold_sets (S : NetDevStats) (dev : String) (p : Nat) (l : List Int)
    (hp : (p : Int) ∈ l) (stats : Nat → Nat → Nat) :
    (l.foldl (fun st j => slotWritten st j.toNat S dev) stats) p 0
        = lookupStat S dev "receive_bytes" ∧
    (l.foldl (fun st j => slotWritten st j.toNat S dev) stats) p 1
        = lookupStat S dev "transmit_bytes" := by
  induction l generalizing stats with
  | nil => simp at hp
  | cons j l ih =>
    rw [List.foldl_cons]
    rcases List.mem_cons.mp hp with h1 | h1
    · apply primeFold_keeps
      have hj : j.toNat = p := by omega
      unfold slotWritten
      simp [hj]
    · exact ih h1 _

theorem runLoop_consecutive (dev : String) (fs : List NetDevStats) :
    ∀ (t0 : Int) (s : Store), 0 ≤ t0 →
      ∃ s1 : Store, runLoop dev (consecutiveTicks t0 fs) s = some s1 ∧
        s1.stats = runStats dev t0 fs s.stats ∧
        (fs ≠ [] → s1.sec = (t0 + (fs.length : Int)) % window) ∧
        (fs = [] → s1.sec = s.sec) := by
  have hw : window = 300 := rfl
  induction fs with
  | nil =>
    intro t0 s _
    exact ⟨s, rfl, rfl, fun h => absurd rfl h, fun _ => rfl⟩
  | cons f fs ih =>
    intro t0 s h0
    obtain ⟨s1, h1, h2, h3, h4⟩ := ih (t0 + 1)
      ⟨slotWritten s.stats (t0 % window).toNat f dev, (t0 % window + 1) % window⟩ (by omega)
    refine ⟨s1, ?_, ?_, ?_, fun h => absurd h (List.cons_ne_nil f fs)⟩
    · simp only [consecutiveTicks, runLoop, tick_eq dev t0 f s h0]
      exact h1
    · rw [h2]
      rfl
    · intro _
      by_cases hfs : fs = []
      · rw [h4 hfs, hfs]
        simp only [List.length_cons, List.length_nil]
        rw [hw]
        omega
      · rw [h3 hfs]
        simp only [List.length_cons]
        push_cast
        congr 1
        omega

theorem runStats_unchanged (dev : String) (p k : Nat) (fs : List NetDevStats) :
    ∀ (t0 : Int) (st : Nat → Nat → Nat),
      (∀ i : Nat, i < fs.length → ((t0 + (i : Int)) % window).toNat ≠ p) →
      runStats dev t0 fs st p k = st p k := by
  induction fs with
  | nil => intro t0 st _; rfl
  | cons f fs ih =>
    intro t0 st h
    have h0 := h 0 (by simp)
    simp only [Nat.cast_zero, add_zero] at h0
    rw [runStats, ih (t0 + 1)]
    · unfold slotWritten
      simp [Ne.symm h0]
    · intro i hi
      have := h (i + 1) (by simpa using hi)
      rw [show t0 + 1 + (i : Int) = t0 + ((i + 1 : Nat) : Int) by push_cast; ring]
      exact this

theorem slotWritten_at (st : Nat → Nat → Nat) (p : Nat) (S : NetDevStats) (dev : String) :
    slotWritten st p S dev p 0 = lookupStat S dev "receive_bytes" ∧
    slotWritten st p S dev p 1 = lookupStat S dev "transmit_bytes" := by
  unfold slotWritten
  simp

theorem runStats_last_write (dev : String) (fs : List NetDevStats) :
    ∀ (t0 : Int) (st : Nat → Nat → Nat) (i : Nat) (f : NetDevStats), fs[i]? = some f →
      (∀ i2 : Nat, i < i2 → i2 < fs.length →
        (t0 + (i2 : Int)) % window ≠ (t0 + (i : Int)) % window) →
      runStats dev t0 fs st ((t0 + (i : Int)) % window).toNat 0
          = lookupStat f dev "receive_bytes" ∧
      runStats dev t0 fs st ((t0 + (i : Int)) % window).toNat 1
          = lookupStat f dev "transmit_bytes" := by
  have hw : window = 300 := rfl
  induction fs with
  | nil => intro t0 st i f hf; simp at hf
  | cons g fs ih =>
    intro t0 st i f hf hlater
    cases i with
    | zero =>
      have hg : g = f := by simpa using hf
      subst hg
      have hun : ∀ k : Nat, runStats dev (t0 + 1) fs
          (slotWritten st (t0 % window).toNat g dev) (t0 % window).toNat k
            = slotWritten st (t0 % window).toNat g dev (t0 % window).toNat k := by
        intro k
        apply runStats_unchanged
        intro i2 hi2
        have := hlater (i2 + 1) (by omega) (by simpa using hi2)
        simp only [Nat.cast_zero, add_zero] at this
        rw [hw] at this ⊢
        push_cast at this
        omega
      simp only [Nat.cast_zero, add_zero, runStats]
      rw [hun 0, hun 1]
      exact slotWritten_at _ _ _ _
    | succ i =>
      have hf2 : fs[i]? = some f := by simpa using hf
      have key := ih (t0 + 1) (slotWritten st (t0 % window).toNat g dev) i f hf2 (by
        intro i2 h1 h2
        have := hlater (i2 + 1) (by omega) (by simpa using h2)
        rw [hw] at this ⊢
        push_cast at this
        omega)
      have e : t0 + ((i + 1 : Nat) : Int) = t0 + 1 + (i : Int) := by push_cast; ring
      rw [e]
      exact key

theorem prime_eq (dev : String) (S : NetDevStats) (s : Store) :
    ∃ s1 : Store, prime dev (some S) s = some s1 ∧
      (∀ j : Nat, (j : Int) < window →
        s1.stats j 0 = lookupStat S dev "receive_bytes" ∧
        s1.stats j 1 = lookupStat S dev "transmit_bytes") ∧
      s1.sec = s.sec := by
  have hfold := primeFold_eq S dev (forRange 0 window)
    (fun j hj => by rw [mem_forRange] at hj; exact hj) s.stats
  have hall : ∀ j : Nat, (j : Int) < window →
      (List.foldl (fun st j => slotWritten st j.toNat S dev) s.stats (forRange 0 window)) j 0
          = lookupStat S dev "receive_bytes" ∧
      (List.foldl (fun st j => slotWritten st j.toNat S dev) s.stats (forRange 0 window)) j 1
          = lookupStat S dev "transmit_bytes" := by
    intro j hj
    apply primeFold_sets
    rw [mem_forRange]
    omega
  generalize List.foldl (fun st j => slotWritten st j.toNat S dev) s.stats
    (forRange 0 window) = filled at hfold hall
  refine ⟨⟨filled, s.sec⟩, ?_, hall, rfl⟩
  unfold prime
  simp only [hfold, Option.map_some']

theorem map_range_eq_map_enum {α β : Type} (l : List α) (g : Nat → β) (f : Nat × α → β)
    (h : ∀ (i : Nat) (a : α), l[i]? = some a → g i = f (i, a)) :
    (List.range l.length).map g = l.enum.map f := by
  apply List.ext_getElem?
  intro i
  rw [List.getElem?_map, List.getElem?_map, List.getElem?_enum]
  by_cases hi : i < l.length
  · have hget : l[i]? = some l[i] := List.getElem?_eq_getElem hi
    rw [List.getElem?_range hi, hget]
    simp [h i _ hget]
  · have h1 : (List.range l.length)[i]? = none :=
      List.getElem?_eq_none (by simpa using hi)
    have h2 : l[i]? = none := List.getElem?_eq_none (by simpa using hi)
    rw [h1, h2]
    rfl

theorem lookup_singleDevice (dev : String) (rx tx : Nat) :
    lookupStat (singleDevice dev rx tx) dev "receive_bytes" = rx ∧
    lookupStat (singleDevice dev rx tx) dev "transmit_bytes" = tx := by
  unfold lookupStat singleDevice
  simp

theorem baselineMetrics_eq_render (s : Store) (t n : Int) (hn : 0 < n ∧ n < window) :
    baselineMetrics s t n = (baselineAgg s t n).map renderBaseline := by
  have hw : window = 300 := rfl
  unfold baselineMetrics baselineMetricsWith baselineAgg
  rw [if_neg (by omega), if_neg (by omega)]

theorem forRange_length (lo hi : Int) : (forRange lo hi).length = (hi - lo).toNat := by
  unfold forRange
  simp

theorem const_gradient_agg (s : Store) (t n c : Int)
    (hc : ∀ j ∈ forRange (s.sec - n) s.sec, specGradient s j = c) :
    (t < c → specCount s t n = n.toNat ∧
      specArea s t n = ((n.toNat : Int) * (c - t)) % (u64Mod : Int)) ∧
    (c ≤ t → specCount s t n = 0 ∧ specArea s t n = 0) := by
  constructor
  · intro h
    have hf : specExceeding s t n = forRange (s.sec - n) s.sec := by
      unfold specExceeding
      rw [List.filter_eq_self]
      intro j hj
      rw [hc j hj]
      simpa using h
    have hl : (forRange (s.sec - n) s.sec).length = n.toNat := by
      rw [forRange_length]
      congr 1
      omega
    unfold specCount specArea
    rw [hf]
    refine ⟨hl, ?_⟩
    have hmap : (forRange (s.sec - n) s.sec).map (fun j => specGradient s j - t)
        = List.replicate n.toNat (c - t) := by
      rw [← hl, List.eq_replicate_iff]
      refine ⟨by simp, ?_⟩
      intro b hb
      obtain ⟨j, hj, rfl⟩ := List.mem_map.mp hb
      rw [hc j hj]
    rw [hmap, List.sum_replicate]
    simp
  · intro h
    have hf : specExceeding s t n = [] := by
      unfold specExceeding
      rw [List.filter_eq_nil_iff]
      intro j hj
      rw [hc j hj]
      simpa using h
    unfold specCount specArea
    rw [hf]
    exact ⟨rfl, rfl⟩

theorem snapshotSum_eq (stats : Nat → Nat → Nat) (x : Int) :
    snapshotSum stats x = stats x.toNat 0 + stats x.toNat 1 := by
  simp [snapshotSum, keys, List.range_succ]

theorem ramp_slots (dev : String) (t0 : Int) (st : Nat → Nat → Nat) (i : Nat) (hi : i < 10) :
    runStats dev t0 (rampFetches dev) st ((t0 + (i : Int)) % window).toNat 0 = 50 * (i + 1) ∧
    runStats dev t0 (rampFetches dev) st ((t0 + (i : Int)) % window).toNat 1 = 50 * (i + 1) := by
  have hw : window = 300 := rfl
  have hlen : (rampFetches dev).length = 10 := by simp [rampFetches]
  have hget : (rampFetches dev)[i]? = some (singleDevice dev (50 * (i + 1)) (50 * (i + 1))) := by
    unfold rampFetches
    rw [List.getElem?_map, List.getElem?_range hi]
    rfl
  have h := runStats_last_write dev (rampFetches dev) t0 st i _ hget (by
    intro i2 h1 h2
    rw [hlen] at h2
    rw [hw]
    omega)
  have hl := lookup_singleDevice dev (50 * (i + 1)) (50 * (i + 1))
  rw [hl.1, hl.2] at h
  exact h

theorem ramp_gradient (dev : String) (t0 : Int) (s0 s1 : Store)
    (h0 : ∀ j : Nat, (j : Int) < window → s0.stats j 0 = 0 ∧ s0.stats j 1 = 0)
    (hst : s1.stats = runStats dev t0 (rampFetches dev) s0.stats)
    (hsec : s1.sec = (t0 + 10) % window) :
    ∀ j ∈ forRange (s1.sec - 10) s1.sec, specGradient s1 j = 100 := by
  have hw : window = 300 := rfl
  have hlen : (rampFetches dev).length = 10 := by simp [rampFetches]
  intro j hj
  rw [mem_forRange] at hj
  obtain ⟨i, hi, rfl⟩ : ∃ i : Nat, i < 10 ∧ j = s1.sec - 10 + (i : Int) :=
    ⟨(j - (s1.sec - 10)).toNat, by omega, by omega⟩
  have hx : (s1.sec - 10 + (i : Int)) % window = (t0 + (i : Int)) % window := by
    rw [hsec, hw]
    omega
  have hcur := ramp_slots dev t0 s0.stats i hi
  unfold specGradient
  rw [snapshotSum_eq, snapshotSum_eq, hx, hst, hcur.1, hcur.2]
  cases i with
  | zero =>
    have hp : (s1.sec - 10 + ((0 : Nat) : Int) - 1) % window = (t0 - 1) % window := by
      rw [hsec, hw]
      omega
    have hun : ∀ k : Nat, runStats dev t0 (rampFetches dev) s0.stats
        ((t0 - 1) % window).toNat k = s0.stats ((t0 - 1) % window).toNat k := by
      intro k
      apply runStats_unchanged
      intro i2 hi2
      rw [hlen] at hi2
      rw [hw]
      omega
    have hz := h0 ((t0 - 1) % window).toNat (by rw [hw]; omega)
    rw [hp, hun 0, hun 1, hz.1, hz.2]
    decide
  | succ i =>
    have hp : (s1.sec - 10 + ((i + 1 : Nat) : Int) - 1) % window = (t0 + (i : Int)) % window := by
      rw [hsec, hw]
      omega
    have hprev := ramp_slots dev t0 s0.stats i (by omega)
    rw [hp, hprev.1, hprev.2]
    unfold u64Mod
    push_cast
    omega

/-! ## Raw query -/

/-- C1: for a cursor in `[0, W)` and `0 < n < W`, `rawMetrics(n)` is the concatenation of
exactly `n * 2` newline-terminated lines; for every `i < n` the lines `2i` and `2i + 1`
both start with the index `(sec - n + i) mod W`, these indices are consecutive modulo `W`,
oldest first, and the last one is `(sec - 1) mod W`. -/
theorem rawMetrics_line_count (s : Store) (n : Int) (hsec : 0 ≤ s.sec ∧ s.sec < window)
    (hn : 0 < n ∧ n < window) :
    ∃ lines : List String,
      rawMetrics s n = some (String.join lines) ∧
      lines.length = n.toNat * 2 ∧
      (∀ l ∈ lines, IsLine l) ∧
      (∀ i : Nat, i < n.toNat → ∃ r1 r2 : String,
        lines[2 * i]? = some (toString ((s.sec - n + (i : Int)) % window) ++ " " ++ r1) ∧
        lines[2 * i + 1]? = some (toString ((s.sec - n + (i : Int)) % window) ++ " " ++ r2)) ∧
      (∀ i : Nat, i + 1 < n.toNat →
        (s.sec - n + ((i + 1 : Nat) : Int)) % window
          = ((s.sec - n + (i : Int)) % window + 1) % window) ∧
      (s.sec - n + ((n.toNat - 1 : Nat) : Int)) % window = (s.sec - 1) % window := by
  have hw : window = 300 := rfl
  refine ⟨(List.range (2 * n.toNat)).map (rawOutputLine s n),
    rawMetrics_eq_lines s n hsec hn, ?_, ?_, ?_, ?_, ?_⟩
  · simp only [List.length_map, List.length_range]
    omega
  · intro l hl
    obtain ⟨k, _, rfl⟩ := List.mem_map.mp hl
    unfold rawOutputLine
    apply rawLine_isLine _ (rawIndex_bounds s n (k / 2)).1
    split <;> decide
  · intro i hi
    have e1 : 2 * i / 2 = i := by omega
    have e2 : (2 * i + 1) / 2 = i := by omega
    have b1 : 2 * i < 2 * n.toNat := by omega
    have b2 : 2 * i + 1 < 2 * n.toNat := by omega
    have e3 : 2 * i % 2 = 0 := by omega
    have e4 : (2 * i + 1) % 2 = 1 := by omega
    refine ⟨"receive_bytes" ++ " "
        ++ toString (s.stats ((s.sec - n + (i : Int)) % window).toNat 0) ++ "\n",
      "transmit_bytes" ++ " "
        ++ toString (s.stats ((s.sec - n + (i : Int)) % window).toNat 1) ++ "\n", ?_, ?_⟩
    · rw [List.getElem?_map, List.getElem?_range b1]
      simp only [Option.map_some', rawOutputLine, rawLine, rawIndex, e1, e3, if_true]
      congr 1
      apply String.ext
      simp
    · rw [List.getElem?_map, List.getElem?_range b2]
      simp only [Option.map_some', rawOutputLine, rawLine, rawIndex, e2, e4]
      congr 1
      apply String.ext
      simp
  · intro i hi
    rw [hw]
    omega
  · rw [hw]
    omega

/-- C1, instance: on the example store (cursor 269) `rawMetrics(2)` is made of 4 lines. -/
theorem rawMetrics_line_count_witness :
    (0 ≤ exampleStore.sec ∧ exampleStore.sec < window) ∧ ((0 : Int) < 2 ∧ (2 : Int) < window) ∧
    ∃ lines : List String,
      rawMetrics exampleStore 2 = some (String.join lines) ∧ lines.length = 4 ∧
      (∀ l ∈ lines, IsLine l) :=
  ⟨by decide, by decide,
    (rawMetrics_line_count exampleStore 2 (by decide) (by decide)).imp
      (fun _ h => ⟨h.1, h.2.1, h.2.2.1⟩)⟩

/-- C7: for a cursor in `[0, W)` and `0 < n < W`, `rawMetrics(n)` is the concatenation,
for `i = 0..n-1` with `x = (sec - n + i) mod W`, of the line
`"<x> receive_bytes <stats[x][0]>\n"` followed by `"<x> transmit_bytes <stats[x][1]>\n"`. -/
theorem rawMetrics_format (s : Store) (n : Int) (hsec : 0 ≤ s.sec ∧ s.sec < window)
    (hn : 0 < n ∧ n < window) :
    rawMetrics s n = some (String.join ((List.range n.toNat).map (fun (i : Nat) =>
      (toString ((s.sec - n + (i : Int)) % window) ++ " receive_bytes "
        ++ toString (s.stats ((s.sec - n + (i : Int)) % window).toNat 0) ++ "\n")
      ++ (toString ((s.sec - n + (i : Int)) % window) ++ " transmit_bytes "
        ++ toString (s.stats ((s.sec - n + (i : Int)) % window).toNat 1) ++ "\n")))) := by
  rw [rawMetrics_eq_join s n hsec hn]
  congr 3
  funext i
  apply String.ext
  simp [rawBlock, rawLine]

/-- C7, the documented example: with the cursor at 269 and the two snapshots of the
example at slots 267 and 268, `rawMetrics(2)` is exactly the four documented lines. -/
theorem rawMetrics_format_witness :
    (0 ≤ exampleStore.sec ∧ exampleStore.sec < window) ∧ ((0 : Int) < 2 ∧ (2 : Int) < window) ∧
    rawMetrics exampleStore 2 = some ("267 receive_bytes 19305901433\n"
      ++ "267 transmit_bytes 9003338538\n"
      ++ "268 receive_bytes 19305902078\n"
      ++ "268 transmit_bytes 9003338768\n") :=
  ⟨by decide, by decide,
    (rawMetrics_format exampleStore 2 (by decide) (by decide)).trans (by decide)⟩

/-- C3: for `n <= 0` or `n >= W`, `rawMetrics(n)` and `baselineMetrics(baseline, n)`
return the empty result on every store and for every baseline, and they do so without
reading a slot: the result is the same whatever the array access returns, even when
every access would abort. -/
theorem out_of_range_empty (n : Int) (h : n ≤ 0 ∨ window ≤ n) :
    (∀ (s : Store) (baseline : Int),
      rawMetrics s n = some "" ∧ baselineMetrics s baseline n = some "") ∧
    (∀ (read : Int → Option (Nat → Nat)) (sec baseline : Int),
      rawMetricsWith read sec n = some "" ∧ baselineMetricsWith read sec baseline n = some "") := by
  have hg : 0 ≥ n ∨ n ≥ window := by omega
  have key : ∀ (read : Int → Option (Nat → Nat)) (sec baseline : Int),
      rawMetricsWith read sec n = some "" ∧
        baselineMetricsWith read sec baseline n = some "" := by
    intro read sec baseline
    unfold rawMetricsWith baselineMetricsWith
    rw [if_pos hg, if_pos hg]
    exact ⟨rfl, rfl⟩
  exact ⟨fun s baseline => key (readSlot s.stats) s.sec baseline, key⟩

/-- C3, instances: `n = W` on the example store, and `n = -5` with an array access that
always aborts. -/
theorem out_of_range_empty_witness :
    ((300 : Int) ≤ 0 ∨ window ≤ 300) ∧ ((-5 : Int) ≤ 0 ∨ window ≤ -5) ∧
    (rawMetrics exampleStore 300 = some "" ∧ baselineMetrics exampleStore 100 300 = some "") ∧
    (rawMetricsWith (fun _ => none) 0 (-5) = some "" ∧
      baselineMetricsWith (fun _ => none) 0 100 (-5) = some "") :=
  ⟨by decide, by decide, (out_of_range_empty 300 (by decide)).1 exampleStore 100,
    (out_of_range_empty (-5) (by decide)).2 (fun _ => none) 0 100⟩

/-! ## Baseline query -/

/-- C2: for a cursor in `[0, W)`, `0 < n < W` and a threshold `t >= 0` (an `int`, so below
`2^63`), `baselineMetrics(t, n)` returns exactly the two lines `above_baseline_count c` and
`above_baseline_area_sum a`, where `c` counts the `j` in `[sec - n, sec)` whose gradient
`g_j` (difference of the counter sums of slots `j mod W` and `(j - 1) mod W`, modulo `2^64`)
exceeds `t`, and `a` is the sum of `g_j - t` over those `j` modulo `2^64`; the gradient the
code accumulates counter by counter equals `g_j`. -/
theorem baselineMetrics_spec (s : Store) (t n : Int) (hsec : 0 ≤ s.sec ∧ s.sec < window)
    (hn : 0 < n ∧ n < window) (h0 : 0 ≤ t) (h1 : t < 9223372036854775808) :
    baselineMetrics s t n = some (("above_baseline_count " ++ toString (specCount s t n) ++ "\n")
      ++ ("above_baseline_area_sum " ++ toString (specArea s t n).toNat ++ "\n")) ∧
    baselineAgg s t n = some (specCount s t n, (specArea s t n).toNat) ∧
    (∀ j : Int, ((gradient (s.stats (j % window).toNat) (s.stats ((j - 1) % window).toNat) : Nat)
      : Int) = specGradient s j) := by
  have hw : window = 300 := rfl
  have hg : ¬ (0 ≥ n ∨ n ≥ window) := by omega
  refine ⟨?_, ?_, fun j => gradient_eq s.stats _ _⟩
  · unfold baselineMetrics baselineMetricsWith
    rw [if_neg hg, baselineLoop_eq s t n hsec hn h0 h1]
    simp only [Option.map_some', renderBaseline]
    rw [str_empty_append]
  · exact baselineAgg_eq s t n hsec hn h0 h1

/-- C2, instance: the example store, the two most recent samples, threshold 100. -/
theorem baselineMetrics_spec_witness :
    (0 ≤ exampleStore.sec ∧ exampleStore.sec < window) ∧ ((0 : Int) < 2 ∧ (2 : Int) < window) ∧
    ((0 : Int) ≤ 100 ∧ (100 : Int) < 9223372036854775808) ∧
    baselineMetrics exampleStore 100 2
      = some ("above_baseline_count 2\n" ++ "above_baseline_area_sum 28309240646\n") :=
  ⟨by decide, by decide, by decide,
    (baselineMetrics_spec exampleStore 100 2 (by decide) (by decide) (by decide) (by decide)).1.trans
      (by decide)⟩

/-- C4, as amended: for a cursor in `[0, W)`, `0 < n < W` and thresholds
`0 <= t1 <= t2` (of type `int`, so below `2^63`), `above_baseline_count` for `t2` is at most
the one for `t1`; and when the sum of the excesses over `t1` stays below `2^64` (the
`uint64` accumulator does not wrap), `above_baseline_area_sum` for `t2` is at most the one
for `t1`. -/
theorem baseline_monotone (s : Store) (n t1 t2 : Int) (hsec : 0 ≤ s.sec ∧ s.sec < window)
    (hn : 0 < n ∧ n < window) (h0 : 0 ≤ t1) (h12 : t1 ≤ t2) (h2 : t2 < 9223372036854775808) :
    ∃ c1 a1 c2 a2 : Nat,
      baselineAgg s t1 n = some (c1, a1) ∧ baselineAgg s t2 n = some (c2, a2) ∧ c2 ≤ c1 ∧
      (((specExceeding s t1 n).map (fun j => specGradient s j - t1)).sum < (u64Mod : Int) →
        a2 ≤ a1) := by
  have e1 := (baselineAgg_eq s t1 n hsec hn h0 (by omega))
  have e2 := (baselineAgg_eq s t2 n hsec hn (by omega) h2)
  refine ⟨_, _, _, _, e1, e2, ?_, ?_⟩
  · exact exceeding_length_mono (specGradient s) t1 t2 h12 _
  · intro hlt
    have hm := exceeding_sum_mono (specGradient s) t1 t2 h12 (forRange (s.sec - n) s.sec)
    unfold specArea specExceeding
    unfold specExceeding at hlt
    unfold u64Mod at hlt ⊢
    omega

/-- C4 as amended, instance: the example store with thresholds 100 and 1000. -/
theorem baseline_monotone_witness :
    (0 ≤ exampleStore.sec ∧ exampleStore.sec < window) ∧ ((0 : Int) < 2 ∧ (2 : Int) < window) ∧
    ((0 : Int) ≤ 100 ∧ (100 : Int) ≤ 1000 ∧ (1000 : Int) < 9223372036854775808) ∧
    ∃ c1 a1 c2 a2 : Nat,
      baselineAgg exampleStore 100 2 = some (c1, a1) ∧
      baselineAgg exampleStore 1000 2 = some (c2, a2) ∧ c2 ≤ c1 ∧ a2 ≤ a1 := by
  refine ⟨by decide, by decide, by decide, ?_⟩
  obtain ⟨c1, a1, c2, a2, e1, e2, hc, ha⟩ :=
    baseline_monotone exampleStore 2 100 1000 (by decide) (by decide) (by decide) (by decide)
      (by decide)
  exact ⟨c1, a1, c2, a2, e1, e2, hc, ha (by decide)⟩

/-- C4 as stated fails, on a store that went through a counter reset (`n = 2`): raising
the threshold from `-1` to `0` raises the count from 0 to 2, because `uint64(-1)` is
`2^64 - 1`; and raising it from `0` to `1` raises the area sum from 0 to `2^64 - 2`,
because the sum for threshold 0 wraps around `2^64`. -/
theorem baseline_monotone_counterexample :
    (0 ≤ resetStore.sec ∧ resetStore.sec < window) ∧ ((0 : Int) < 2 ∧ (2 : Int) < window) ∧
    ((-1 : Int) ≤ 0 ∧ baselineAgg resetStore (-1) 2 = some (0, 0) ∧
      baselineAgg resetStore 0 2 = some (2, 0) ∧ ¬ (2 ≤ 0)) ∧
    ((0 : Int) ≤ 1 ∧ baselineAgg resetStore 0 2 = some (2, 0) ∧
      baselineAgg resetStore 1 2 = some (2, 18446744073709551614) ∧
      ¬ (18446744073709551614 ≤ 0)) := by
  decide

/-! ## Sampling loop -/

/-- C8, as amended: a successful tick at wall-clock second `t >= 0` leaves the cursor at
`(t mod W + 1) mod W`, whatever the cursor was before; for a cursor in `[0, W)` this is
`(cursor before + 1) mod W` exactly when the cursor before equals `t mod W`. -/
theorem tick_cursor (dev : String) (now : Int) (S : NetDevStats) (s : Store) (h : 0 ≤ now) :
    ∃ s1 : Store, tick dev now (some S) s = some s1 ∧
      s1.sec = (now % window + 1) % window ∧
      ((0 ≤ s.sec ∧ s.sec < window) →
        (s1.sec = (s.sec + 1) % window ↔ s.sec = now % window)) := by
  have hw : window = 300 := rfl
  refine ⟨_, tick_eq dev now S s h, rfl, ?_⟩
  intro hs
  show (now % window + 1) % window = (s.sec + 1) % window ↔ s.sec = now % window
  rw [hw] at hs ⊢
  omega

/-- C8 as amended, instance: from the initial store, a tick at second 5. -/
theorem tick_cursor_witness :
    (0 : Int) ≤ 5 ∧ ∃ s1 : Store, tick "wlan0" 5 (some noDevices) initStore = some s1 ∧
      s1.sec = 6 := by
  obtain ⟨s1, h1, h2, _⟩ := tick_cursor "wlan0" 5 noDevices initStore (by decide)
  exact ⟨by decide, s1, h1, h2.trans (by decide)⟩

/-- C8 as stated fails: from the initial store (cursor 0) a successful tick at wall-clock
second 5 leaves the cursor at 6, not at `(0 + 1) mod W = 1`. -/
theorem tick_cursor_counterexample :
    (tick "wlan0" 5 (some noDevices) initStore).map Store.sec = some 6 ∧
    (6 : Int) ≠ (initStore.sec + 1) % window := by
  decide

/-- C9: when the priming fetch succeeds with statistics `S`, priming returns a store in
which every slot `j` in `[0, W)` holds `(S[dev][receive_bytes], S[dev][transmit_bytes])`,
with a missing device reading as 0; the cursor is unchanged, so from the initial state it
is still 0. -/
theorem prime_fills (dev : String) (S : NetDevStats) (s : Store) :
    ∃ s1 : Store, prime dev (some S) s = some s1 ∧
      (∀ j : Nat, (j : Int) < window →
        s1.stats j 0 = lookupStat S dev "receive_bytes" ∧
        s1.stats j 1 = lookupStat S dev "transmit_bytes") ∧
      (S dev = none → ∀ j : Nat, (j : Int) < window → s1.stats j 0 = 0 ∧ s1.stats j 1 = 0) ∧
      (∀ m : String → Option Nat, S dev = some m → m "receive_bytes" = none →
        ∀ j : Nat, (j : Int) < window → s1.stats j 0 = 0) ∧
      (∀ m : String → Option Nat, S dev = some m → m "transmit_bytes" = none →
        ∀ j : Nat, (j : Int) < window → s1.stats j 1 = 0) ∧
      s1.sec = s.sec ∧ (s = initStore → s1.sec = 0) := by
  obtain ⟨s1, h1, hall, hsec⟩ := prime_eq dev S s
  refine ⟨s1, h1, hall, ?_, ?_, ?_, hsec, ?_⟩
  · intro hnone j hj
    have := hall j hj
    simpa [lookupStat, hnone] using this
  · intro m hm hk j hj
    have := (hall j hj).1
    simpa [lookupStat, hm, hk] using this
  · intro m hm hk j hj
    have := (hall j hj).2
    simpa [lookupStat, hm, hk] using this
  · intro hs
    rw [hsec, hs]
    rfl

/-- C5: after priming and `m > W` successful ticks at the consecutive seconds
`t0, ..., t0 + m - 1` with fetched snapshots `s_1, ..., s_m`, for `0 < n < W` the output of
`rawMetrics(n)` renders exactly the last `n` fetched snapshots `s_{m-n+1}, ..., s_m` in
this order, the `i`-th of them (counting from 0) under index `(t0 + m - n + i) mod W`;
these `n` indices are pairwise distinct and consecutive modulo `W`. -/
theorem wraparound_order (dev : String) (S0 : NetDevStats) (fetches : List NetDevStats)
    (t0 n : Int) (ht0 : 0 ≤ t0) (hm : window < (fetches.length : Int))
    (hn : 0 < n ∧ n < window) :
    ∃ s0 s1 : Store,
      prime dev (some S0) initStore = some s0 ∧
      runLoop dev (consecutiveTicks t0 fetches) s0 = some s1 ∧
      rawMetrics s1 n = some (String.join ((fetches.drop (fetches.length - n.toNat)).enum.map
        (fun iS => fetchBlock ((t0 + (fetches.length : Int) - n + (iS.1 : Int)) % window)
          iS.2 dev))) ∧
      (fetches.drop (fetches.length - n.toNat)).length = n.toNat ∧
      ((List.range n.toNat).map
        (fun (i : Nat) => (t0 + (fetches.length : Int) - n + (i : Int)) % window)).Nodup ∧
      (∀ i : Nat, i + 1 < n.toNat →
        (t0 + (fetches.length : Int) - n + ((i + 1 : Nat) : Int)) % window
          = ((t0 + (fetches.length : Int) - n + (i : Int)) % window + 1) % window) := by
  have hw : window = 300 := rfl
  obtain ⟨s0, hp, _, _⟩ := prime_eq dev S0 initStore
  obtain ⟨s1, hr, hst, hsec, _⟩ := runLoop_consecutive dev fetches t0 s0 ht0
  have hne : fetches ≠ [] := by
    intro h
    rw [h, hw] at hm
    simp at hm
  have hsec1 := hsec hne
  have hlen : (fetches.drop (fetches.length - n.toNat)).length = n.toNat := by
    rw [List.length_drop]
    omega
  refine ⟨s0, s1, hp, hr, ?_, hlen, ?_, ?_⟩
  · rw [rawMetrics_eq_join s1 n (by rw [hsec1, hw]; omega) hn]
    have key := map_range_eq_map_enum (fetches.drop (fetches.length - n.toNat))
      (fun (i : Nat) => rawBlock s1.stats ((s1.sec - n + (i : Int)) % window))
      (fun iS => fetchBlock ((t0 + (fetches.length : Int) - n + (iS.1 : Int)) % window)
        iS.2 dev)
      (by
        intro i a hia
        rw [List.getElem?_drop] at hia
        have hib : fetches.length - n.toNat + i < fetches.length := by
          by_contra hc
          rw [List.getElem?_eq_none (by omega)] at hia
          exact Option.noConfusion hia
        have hlast := runStats_last_write dev fetches t0 s0.stats
          (fetches.length - n.toNat + i) a hia (by
            intro i2 h1 h2
            rw [hw] at hn ⊢
            omega)
        have hidx : (s1.sec - n + (i : Int)) % window
            = (t0 + ((fetches.length - n.toNat + i : Nat) : Int)) % window := by
          rw [hsec1, hw]
          rw [hw] at hn hm
          omega
        have hidx2 : (t0 + (fetches.length : Int) - n + (i : Int)) % window
            = (t0 + ((fetches.length - n.toNat + i : Nat) : Int)) % window := by
          rw [hw]
          rw [hw] at hn hm
          omega
        show rawBlock s1.stats _ = fetchBlock _ a dev
        rw [hidx, hidx2, hst]
        unfold rawBlock fetchBlock
        rw [hlast.1, hlast.2])
    rw [hlen] at key
    rw [key]
  · apply List.Nodup.map_on _ (List.nodup_range _)
    intro x hx y hy hxy
    rw [List.mem_range] at hx hy
    rw [hw] at hxy hn
    omega
  · intro i hi
    rw [hw]
    omega

set_option maxRecDepth 100000 in
/-- C5, instance: 301 ticks from second 0 with the snapshots `(k, 2 k)`; the two most
recent ones are rendered under the indices 299 and 0, across the array boundary. -/
theorem wraparound_order_witness :
    (0 : Int) ≤ 0 ∧ window < ((longRun "wlan0").length : Int) ∧
    ((0 : Int) < 2 ∧ (2 : Int) < window) ∧
    ∃ s0 s1 : Store,
      prime "wlan0" (some noDevices) initStore = some s0 ∧
      runLoop "wlan0" (consecutiveTicks 0 (longRun "wlan0")) s0 = some s1 ∧
      rawMetrics s1 2 = some ("299 receive_bytes 300\n" ++ "299 transmit_bytes 600\n"
        ++ "0 receive_bytes 301\n" ++ "0 transmit_bytes 602\n") := by
  obtain ⟨s0, s1, h1, h2, h3, _⟩ :=
    wraparound_order "wlan0" noDevices (longRun "wlan0") 0 2 (by decide) (by decide) (by decide)
  exact ⟨by decide, by decide, by decide, s0, s1, h1, h2, h3.trans (by decide)⟩

/-- C6: prime the store with an all-zero snapshot, then perform 10 ticks at consecutive
seconds from any `t0 >= 0`, the `k`-th fetching `receive_bytes = 50 k` and
`transmit_bytes = 50 k`.  Then `baselineMetrics(t, 10)` reports count 10 and area
`(100 - t) * 10` for every `0 <= t < 100`, and 0 and 0 for every `t >= 100` (an `int`, so
below `2^63`); in particular `baseline(90, 10)` prints 10 and 100 and `baseline(150, 10)`
prints 0 and 0. -/
theorem ramp_scenario (dev : String) (t0 : Int) (ht0 : 0 ≤ t0) :
    ∃ s0 s1 : Store,
      prime dev (some (singleDevice dev 0 0)) initStore = some s0 ∧
      runLoop dev (consecutiveTicks t0 (rampFetches dev)) s0 = some s1 ∧
      (∀ t : Int, 0 ≤ t → t < 100 →
        baselineAgg s1 t 10 = some (10, ((100 - t) * 10).toNat)) ∧
      (∀ t : Int, 100 ≤ t → t < 9223372036854775808 → baselineAgg s1 t 10 = some (0, 0)) ∧
      baselineMetrics s1 90 10
        = some ("above_baseline_count 10\n" ++ "above_baseline_area_sum 100\n") ∧
      baselineMetrics s1 150 10
        = some ("above_baseline_count 0\n" ++ "above_baseline_area_sum 0\n") := by
  have hw : window = 300 := rfl
  obtain ⟨s0, hp, hslots, _⟩ := prime_eq dev (singleDevice dev 0 0) initStore
  obtain ⟨s1, hr, hst, hsec, _⟩ := runLoop_consecutive dev (rampFetches dev) t0 s0 ht0
  have hlen : (rampFetches dev).length = 10 := by simp [rampFetches]
  have hne : rampFetches dev ≠ [] := by
    intro h
    rw [h] at hlen
    simp at hlen
  have hsec1 : s1.sec = (t0 + 10) % window := by
    rw [hsec hne, hlen]
    rfl
  have hzero : ∀ j : Nat, (j : Int) < window → s0.stats j 0 = 0 ∧ s0.stats j 1 = 0 := by
    intro j hj
    have h := hslots j hj
    have hl := lookup_singleDevice dev 0 0
    rw [hl.1, hl.2] at h
    exact h
  have hgrad := ramp_gradient dev t0 s0 s1 hzero hst hsec1
  have hb : 0 ≤ s1.sec ∧ s1.sec < window := by
    rw [hsec1, hw]
    omega
  have hlow : ∀ t : Int, 0 ≤ t → t < 100 →
      baselineAgg s1 t 10 = some (10, ((100 - t) * 10).toNat) := by
    intro t h0 h1
    obtain ⟨hc, ha⟩ := (const_gradient_agg s1 t 10 100 hgrad).1 h1
    have e1 : (10 : Int).toNat = 10 := rfl
    have e2 : ((((10 : Int).toNat : Nat) : Int) * (100 - t) % (u64Mod : Int)).toNat
        = ((100 - t) * 10).toNat := by
      rw [e1]
      unfold u64Mod
      omega
    rw [baselineAgg_eq s1 t 10 hb (by decide) h0 (by omega), hc, ha, e2, e1]
  have hhigh : ∀ t : Int, 100 ≤ t → t < 9223372036854775808 →
      baselineAgg s1 t 10 = some (0, 0) := by
    intro t h0 h1
    obtain ⟨hc, ha⟩ := (const_gradient_agg s1 t 10 100 hgrad).2 h0
    rw [baselineAgg_eq s1 t 10 hb (by decide) (by omega) h1, hc, ha]
    rfl
  refine ⟨s0, s1, hp, hr, hlow, hhigh, ?_, ?_⟩
  · rw [baselineMetrics_eq_render s1 90 10 (by decide), hlow 90 (by decide) (by decide)]
    decide
  · rw [baselineMetrics_eq_render s1 150 10 (by decide), hhigh 150 (by decide) (by decide)]
    decide

/-- C6, instance: the scenario started at second 295, so that the ten ticks cross the
array boundary. -/
theorem ramp_scenario_witness :
    (0 : Int) ≤ 295 ∧
    ∃ s0 s1 : Store,
      prime "wlan0" (some (singleDevice "wlan0" 0 0)) initStore = some s0 ∧
      runLoop "wlan0" (consecutiveTicks 295 (rampFetches "wlan0")) s0 = some s1 ∧
      baselineAgg s1 90 10 = some (10, 100) ∧ baselineAgg s1 150 10 = some (0, 0) := by
  obtain ⟨s0, s1, h1, h2, h3, h4, _, _⟩ := ramp_scenario "wlan0" 295 (by decide)
  exact ⟨by decide, s0, s1, h1, h2, h3 90 (by decide) (by decide),
    h4 150 (by decide) (by decide)⟩

/-! ## Device filter -/

/-- C10: `ignored(name)` is true if and only if an ignore-pattern is configured and the
name matches it, or an accept-pattern is configured and the name does not match it; a
filter constructed from two empty strings ignores no name. -/
theorem ignored_iff (f : DeviceFilter) (name : String) :
    (f.ignored name = true ↔
      ((∃ r : Regexp, f.ignorePattern = some r ∧ r.matchString name = true) ∨
       (∃ r : Regexp, f.acceptPattern = some r ∧ r.matchString name = false))) ∧
    (∀ compile : String → Option Regexp, ∃ f0 : DeviceFilter,
      newDeviceFilter compile "" "" = some f0 ∧ f0.ignored name = false) := by
  constructor
  · obtain ⟨ip, ap⟩ := f
    cases ip <;> cases ap <;> simp [DeviceFilter.ignored]
  · intro compile
    exact ⟨⟨none, none⟩, rfl, rfl⟩

/-! ## Further properties of the sampling loop and the baseline query -/

/-- C16: a successful tick at wall-clock second `t >= 0` with fetched statistics `S`
stores `(S[dev][receive_bytes], S[dev][transmit_bytes])` at slot `p = t mod W`, leaves
every other slot unchanged, and sets the cursor to `(p + 1) mod W`. -/
theorem tick_writes_one_slot (dev : String) (now : Int) (S : NetDevStats) (s : Store)
    (h : 0 ≤ now) :
    ∃ s1 : Store, tick dev now (some S) s = some s1 ∧
      s1.stats (now % window).toNat 0 = lookupStat S dev "receive_bytes" ∧
      s1.stats (now % window).toNat 1 = lookupStat S dev "transmit_bytes" ∧
      (∀ j i : Nat, j ≠ (now % window).toNat → s1.stats j i = s.stats j i) ∧
      s1.sec = (now % window + 1) % window := by
  refine ⟨_, tick_eq dev now S s h, (slotWritten_at _ _ _ _).1, (slotWritten_at _ _ _ _).2,
    ?_, rfl⟩
  intro j i hj
  show slotWritten s.stats (now % window).toNat S dev j i = s.stats j i
  unfold slotWritten
  simp [hj]

/-- C16, instance: a tick at second 605 on the example store writes slot 5 only. -/
theorem tick_writes_one_slot_witness :
    (0 : Int) ≤ 605 ∧
    ∃ s1 : Store, tick "wlan0" 605 (some (singleDevice "wlan0" 7 9)) exampleStore = some s1 ∧
      s1.stats 5 0 = 7 ∧ s1.stats 5 1 = 9 ∧
      s1.stats 267 0 = 19305901433 ∧ s1.sec = 6 := by
  obtain ⟨s1, h1, h2, h3, h4, h5⟩ :=
    tick_writes_one_slot "wlan0" 605 (singleDevice "wlan0" 7 9) exampleStore (by decide)
  exact ⟨by decide, s1, h1, h2.trans (by decide), h3.trans (by decide),
    (h4 267 0 (by decide)).trans (by decide), h5.trans (by decide)⟩

/-- C20: for a cursor in `[0, W)`, `0 < n < W` and thresholds `0 <= t1 <= t2` (of type
`int`, so below `2^63`), the `above_baseline_count` of `baselineMetrics(t2, n)` is at most
that of `baselineMetrics(t1, n)`, and both counts are at most `n`. -/
theorem count_monotone (s : Store) (n t1 t2 : Int) (hsec : 0 ≤ s.sec ∧ s.sec < window)
    (hn : 0 < n ∧ n < window) (h0 : 0 ≤ t1) (h12 : t1 ≤ t2) (h2 : t2 < 9223372036854775808) :
    ∃ c1 a1 c2 a2 : Nat,
      baselineAgg s t1 n = some (c1, a1) ∧ baselineAgg s t2 n = some (c2, a2) ∧
      c2 ≤ c1 ∧ (0 : Int) ≤ (c2 : Int) ∧ (c1 : Int) ≤ n ∧ (c2 : Int) ≤ n := by
  have e1 := baselineAgg_eq s t1 n hsec hn h0 (by omega)
  have e2 := baselineAgg_eq s t2 n hsec hn (by omega) h2
  have hlen : ∀ t : Int, ((specCount s t n : Nat) : Int) ≤ n := by
    intro t
    have h1 : specCount s t n ≤ (forRange (s.sec - n) s.sec).length :=
      List.length_filter_le _ _
    rw [forRange_length] at h1
    omega
  exact ⟨_, _, _, _, e1, e2, exceeding_length_mono (specGradient s) t1 t2 h12 _,
    Int.natCast_nonneg _, hlen t1, hlen t2⟩

/-- C20, instance: the example store, `n = 2`, thresholds 100 and 1000. -/
theorem count_monotone_witness :
    (0 ≤ exampleStore.sec ∧ exampleStore.sec < window) ∧ ((0 : Int) < 2 ∧ (2 : Int) < window) ∧
    ((0 : Int) ≤ 100 ∧ (100 : Int) ≤ 1000 ∧ (1000 : Int) < 9223372036854775808) ∧
    ∃ c1 a1 c2 a2 : Nat,
      baselineAgg exampleStore 100 2 = some (c1, a1) ∧
      baselineAgg exampleStore 1000 2 = some (c2, a2) ∧ c2 ≤ c1 ∧ (c1 : Int) ≤ 2 := by
  obtain ⟨c1, a1, c2, a2, e1, e2, hc, _, hb, _⟩ :=
    count_monotone exampleStore 2 100 1000 (by decide) (by decide) (by decide) (by decide)
      (by decide)
  exact ⟨by decide, by decide, by decide, c1, a1, c2, a2, e1, e2, hc, hb⟩

/-- C13: when the summed counters of the snapshot at `j` are lower by `d`, with
`0 < d < 2^64`, than those of its predecessor, for `j` in the queried window, the gradient
the code computes is `2^64 - d`; for every threshold `0 <= t < 2^64 - d` (of type `int`, so
below `2^63`) the loop body counts the sample and adds `2^64 - d - t` to the area sum modulo
`2^64`, and the sample is among those counted by the query. -/
theorem reset_underflow (s : Store) (n t j d : Int) (hsec : 0 ≤ s.sec ∧ s.sec < window)
    (hn : 0 < n ∧ n < window) (hj : s.sec - n ≤ j ∧ j < s.sec)
    (hd : (snapshotSum s.stats ((j - 1) % window) : Int)
      - (snapshotSum s.stats (j % window) : Int) = d)
    (hd0 : 0 < d) (hd1 : d < 18446744073709551616) (ht0 : 0 ≤ t)
    (ht1 : t < 18446744073709551616 - d) (ht2 : t < 9223372036854775808) :
    ((gradient (s.stats (j % window).toNat) (s.stats ((j - 1) % window).toNat) : Nat) : Int)
      = 18446744073709551616 - d ∧
    (∀ acc : Nat × Nat, baselineStep (readSlot s.stats) t acc j
      = some (acc.1 + 1, (acc.2 + (18446744073709551616 - d - t).toNat) % u64Mod)) ∧
    j ∈ specExceeding s t n := by
  have hw : window = 300 := rfl
  have hg : specGradient s j = 18446744073709551616 - d := by
    unfold specGradient u64Mod
    omega
  refine ⟨?_, ?_, ?_⟩
  · rw [gradient_eq, ← hg]
    rfl
  · intro acc
    rw [baselineStep_eq s t ht0 ht2 acc j (by omega), if_pos (by omega), hg]
  · unfold specExceeding
    rw [List.mem_filter, mem_forRange]
    refine ⟨hj, ?_⟩
    rw [hg]
    simpa using ht1

/-- C13, instance: on the store after a counter reset, slot 1 is lower than slot 0 by
1000, and with threshold 0 the sample is counted with gradient `2^64 - 1000`. -/
theorem reset_underflow_witness :
    (0 ≤ resetStore.sec ∧ resetStore.sec < window) ∧ ((0 : Int) < 2 ∧ (2 : Int) < window) ∧
    ((gradient (resetStore.stats 1) (resetStore.stats 0) : Nat) : Int)
      = 18446744073709550616 ∧
    baselineStep (readSlot resetStore.stats) 0 (0, 0) 1 = some (1, 18446744073709550616) := by
  obtain ⟨h1, h2, _⟩ := reset_underflow resetStore 2 0 1 1000 (by decide) (by decide)
    (by decide) (by decide) (by decide) (by decide) (by decide) (by decide) (by decide)
  exact ⟨by decide, by decide, h1.trans (by decide), (h2 (0, 0)).trans (by decide)⟩

/-! ## HTTP handler and read-only queries -/

theorem baselineStep_some (stats : Nat → Nat → Nat) (k : Int) (acc : Nat × Nat) (j : Int)
    (hj : -window < j) : ∃ r : Nat × Nat, baselineStep (readSlot stats) k acc j = some r := by
  have hw : window = 300 := rfl
  have hx : Int.tmod (j + window) window = j % window := tmod_window j (by omega)
  have hp : Int.tmod (j - 1 + window) window = (j - 1) % window := tmod_window (j - 1) (by omega)
  have hr : ∀ y : Int, readSlot stats (y % window) = some (stats (y % window).toNat) := by
    intro y
    unfold readSlot
    rw [if_pos]
    rw [hw]
    omega
  unfold baselineStep
  simp only [hx, hp, hr]
  split
  · exact ⟨_, rfl⟩
  · exact ⟨_, rfl⟩

theorem baselineFold_some (stats : Nat → Nat → Nat) (k : Int) (l : List Int)
    (hl : ∀ j ∈ l, -window < j) (acc : Nat × Nat) :
    ∃ r : Nat × Nat, l.foldlM (baselineStep (readSlot stats) k) acc = some r := by
  induction l generalizing acc with
  | nil => exact ⟨acc, rfl⟩
  | cons j l ih =>
    obtain ⟨r, hr⟩ := baselineStep_some stats k acc j (hl j (List.mem_cons_self j l))
    rw [List.foldlM_cons, hr]
    exact ih (fun i hi => hl i (List.mem_cons_of_mem j hi)) r

theorem baselineMetrics_some (s : Store) (k n : Int) (hsec : 0 ≤ s.sec ∧ s.sec < window)
    (hn : 0 < n ∧ n < window) :
    ∃ r : Nat × Nat, baselineMetrics s k n = some (renderBaseline r) := by
  have hw : window = 300 := rfl
  obtain ⟨r, hr⟩ := baselineFold_some s.stats k (forRange (s.sec - n) s.sec)
    (fun j hj => by rw [mem_forRange] at hj; omega) (0, 0)
  refine ⟨r, ?_⟩
  unfold baselineMetrics baselineMetricsWith baselineLoop
  rw [if_neg (by omega), hr]
  rfl

theorem str_ne_empty (a : String) (h : a.data ≠ []) : a ≠ "" := by
  intro ha
  rw [ha] at h
  exact h rfl

theorem renderBaseline_ne_empty (r : Nat × Nat) : renderBaseline r ≠ "" := by
  apply str_ne_empty
  simp [renderBaseline, String.data_append]

theorem rawMetrics_ne_empty (s : Store) (n : Int) (hsec : 0 ≤ s.sec ∧ s.sec < window)
    (hn : 0 < n ∧ n < window) : ∃ body : String, rawMetrics s n = some body ∧ body ≠ "" := by
  refine ⟨_, rawMetrics_eq_join s n hsec hn, ?_⟩
  obtain ⟨m, hm⟩ : ∃ m : Nat, n.toNat = m + 1 := ⟨n.toNat - 1, by omega⟩
  rw [hm, List.range_succ_eq_map, List.map_cons, join_cons]
  apply str_ne_empty
  simp [rawBlock, rawLine, String.data_append]

/-- C11: a `/raw` request is answered with `rawMetrics(n)`, where `n` is the parsed `n`
parameter, or 60 when it does not parse (an absent parameter reads as the empty string,
which does not parse); a `/metrics` request is answered with `baselineMetrics(k, n)`,
where `k` is the parsed `baseline` parameter or 100, and `n` the parsed `n` parameter or
60. -/
theorem serveHTTP_defaults (atoi : String → Option Int) (s : Store) (query : String → String) :
    serveHTTP atoi s "/raw" query = rawMetrics s ((atoi (query "n")).getD 60) ∧
    (atoi (query "n") = none → serveHTTP atoi s "/raw" query = rawMetrics s 60) ∧
    (atoi "" = none → query "n" = "" → serveHTTP atoi s "/raw" query = rawMetrics s 60) ∧
    serveHTTP atoi s "/metrics" query
      = baselineMetrics s ((atoi (query "baseline")).getD 100) ((atoi (query "n")).getD 60) ∧
    (atoi (query "baseline") = none → atoi (query "n") = none →
      serveHTTP atoi s "/metrics" query = baselineMetrics s 100 60) := by
  have hraw : serveHTTP atoi s "/raw" query = rawMetrics s ((atoi (query "n")).getD 60) := by
    unfold serveHTTP
    rw [if_pos rfl]
    cases atoi (query "n") <;> rfl
  have hmet : serveHTTP atoi s "/metrics" query
      = baselineMetrics s ((atoi (query "baseline")).getD 100)
          ((atoi (query "n")).getD 60) := by
    unfold serveHTTP
    rw [if_neg (by decide), if_pos rfl]
    cases atoi (query "baseline") <;> cases atoi (query "n") <;> rfl
  refine ⟨hraw, ?_, ?_, hmet, ?_⟩
  · intro h
    rw [hraw, h]
    rfl
  · intro h0 hq
    rw [hraw, hq, h0]
    rfl
  · intro hb hq
    rw [hmet, hb, hq]
    rfl

/-- C12, as amended: for a cursor in `[0, W)`, a `/raw` or `/metrics` request whose `n`
parameter does not parse as an integer is served with the default `n = 60`: its body is
that of `rawMetrics(60)`, respectively `baselineMetrics(k, 60)`, and it is not empty. -/
theorem nonnumeric_n_served_with_default (atoi : String → Option Int) (s : Store)
    (query : String → String) (hsec : 0 ≤ s.sec ∧ s.sec < window)
    (hbad : atoi (query "n") = none) :
    serveHTTP atoi s "/raw" query = rawMetrics s 60 ∧
    serveHTTP atoi s "/metrics" query
      = baselineMetrics s ((atoi (query "baseline")).getD 100) 60 ∧
    (∃ body : String, serveHTTP atoi s "/raw" query = some body ∧ body ≠ "") ∧
    (∃ body : String, serveHTTP atoi s "/metrics" query = some body ∧ body ≠ "") := by
  have hraw : serveHTTP atoi s "/raw" query = rawMetrics s 60 := by
    unfold serveHTTP
    rw [if_pos rfl, hbad]
    rfl
  have hmet : serveHTTP atoi s "/metrics" query
      = baselineMetrics s ((atoi (query "baseline")).getD 100) 60 := by
    unfold serveHTTP
    rw [if_neg (by decide), if_pos rfl, hbad]
    cases atoi (query "baseline") <;> rfl
  refine ⟨hraw, hmet, ?_, ?_⟩
  · rw [hraw]
    exact rawMetrics_ne_empty s 60 hsec (by decide)
  · rw [hmet]
    obtain ⟨r, hr⟩ := baselineMetrics_some s ((atoi (query "baseline")).getD 100) 60 hsec
      (by decide)
    exact ⟨_, hr, renderBaseline_ne_empty r⟩

/-- C12 as amended, instance: the example store and the parameter `n=abc`. -/
theorem nonnumeric_n_served_with_default_witness :
    (0 ≤ exampleStore.sec ∧ exampleStore.sec < window) ∧
    tableAtoi ((fun _ => "abc") "n") = none ∧
    serveHTTP tableAtoi exampleStore "/raw" (fun _ => "abc") = rawMetrics exampleStore 60 ∧
    (∃ body : String,
      serveHTTP tableAtoi exampleStore "/raw" (fun _ => "abc") = some body ∧ body ≠ "") := by
  obtain ⟨h1, _, h3, _⟩ := nonnumeric_n_served_with_default tableAtoi exampleStore
    (fun _ => "abc") (by decide) (by decide)
  exact ⟨by decide, by decide, h1, h3⟩

/-- C12 as stated fails: on the example store a `/metrics` request with the non-numeric
parameter `n=abc` gets the two-line body computed for the default `n = 60`, not an empty
one, although `n = 0` and `n = 300` do get an empty body. -/
theorem nonnumeric_n_counterexample :
    tableAtoi "abc" = none ∧
    serveHTTP tableAtoi exampleStore "/metrics" (fun _ => "abc")
      = some ("above_baseline_count 2\n" ++ "above_baseline_area_sum 28309240646\n") ∧
    serveHTTP tableAtoi exampleStore "/metrics" (fun _ => "abc") ≠ some "" ∧
    serveHTTP tableAtoi exampleStore "/metrics" (fun _ => "300") = some "" := by
  decide

/-- C14: a read method leaves `stats` and `sec` as they were, a second read with no write
in between returns the same output, and the output depends only on the arguments, the
cursor and the `W` by `len(keys)` entries of the array. -/
theorem reads_do_not_mutate (s : Store) (q : Query) :
    (runQuery s q).2 = s ∧
    ((runQuery s q).2.stats = s.stats ∧ (runQuery s q).2.sec = s.sec) ∧
    (runQuery (runQuery s q).2 q).1 = (runQuery s q).1 ∧
    (∀ s2 : Store, s2.sec = s.sec →
      (∀ j i : Nat, (j : Int) < window → i < keys.length → s2.stats j i = s.stats j i) →
      (runQuery s2 q).1 = (runQuery s q).1) := by
  have hw : window = 300 := rfl
  refine ⟨by cases q <;> rfl, by cases q <;> exact ⟨rfl, rfl⟩, by cases q <;> rfl, ?_⟩
  intro s2 hsec hst
  have h01 : ∀ x : Int, 0 ≤ x ∧ x < window →
      s2.stats x.toNat 0 = s.stats x.toNat 0 ∧ s2.stats x.toNat 1 = s.stats x.toNat 1 := by
    intro x hx
    exact ⟨hst _ 0 (by omega) (by decide), hst _ 1 (by omega) (by decide)⟩
  have hraw : rawStep (readSlot s2.stats) = rawStep (readSlot s.stats) := by
    funext buf j
    unfold rawStep readSlot
    by_cases hx : 0 ≤ Int.tmod (j + window) window ∧ Int.tmod (j + window) window < window
    · obtain ⟨e0, e1⟩ := h01 _ hx
      simp [hx, keys, List.enum, List.enumFrom, e0, e1]
    · simp [hx]
  have hbase : ∀ k : Int,
      baselineStep (readSlot s2.stats) k = baselineStep (readSlot s.stats) k := by
    intro k
    funext acc j
    unfold baselineStep readSlot
    by_cases hx : 0 ≤ Int.tmod (j + window) window ∧ Int.tmod (j + window) window < window
    · by_cases hp : 0 ≤ Int.tmod (j - 1 + window) window ∧
          Int.tmod (j - 1 + window) window < window
      · obtain ⟨e0, e1⟩ := h01 _ hx
        obtain ⟨p0, p1⟩ := h01 _ hp
        simp [hx, hp, gradient, keys, List.range_succ, e0, e1, p0, p1]
      · simp [hx, hp]
    · simp [hx]
  cases q with
  | raw n =>
    show rawMetrics s2 n = rawMetrics s n
    unfold rawMetrics rawMetricsWith
    rw [hraw, hsec]
  | baseline k n =>
    show baselineMetrics s2 k n = baselineMetrics s k n
    unfold baselineMetrics baselineMetricsWith baselineLoop
    rw [hbase, hsec]

/-! ## Index safety -/

theorem runLoop_total (dev : String) (ticks : List (Int × Option NetDevStats)) :
    ∀ s : Store, (∀ tk ∈ ticks, 0 ≤ tk.1 ∧ ∃ S : NetDevStats, tk.2 = some S) →
      (0 ≤ s.sec ∧ s.sec < window) →
      ∃ s1 : Store, runLoop dev ticks s = some s1 ∧ 0 ≤ s1.sec ∧ s1.sec < window := by
  have hw : window = 300 := rfl
  induction ticks with
  | nil =>
    intro s _ hs
    exact ⟨s, rfl, hs⟩
  | cons tk rest ih =>
    intro s h hs
    obtain ⟨h0, S, hS⟩ := h tk (List.mem_cons_self tk rest)
    obtain ⟨s1, h1, h2⟩ := ih
      ⟨slotWritten s.stats (tk.1 % window).toNat S dev, (tk.1 % window + 1) % window⟩
      (fun t ht => h t (List.mem_cons_of_mem tk ht))
      (by
        show 0 ≤ (tk.1 % window + 1) % window ∧ (tk.1 % window + 1) % window < window
        rw [hw]
        omega)
    refine ⟨s1, ?_, h2⟩
    simp only [runLoop, hS, tick_eq dev tk.1 S s h0]
    exact h1

/-- C17: after priming and any list of successful ticks at wall-clock seconds `>= 0` the
cursor is in `[0, W)`; for every `0 < n < W` and every `j` in `[sec - n, sec)` the
dividends `j + W` and `j - 1 + W` are non-negative and both indices, computed with the
truncated remainder, lie in `[0, W)`; hence `rawMetrics(n)` and `baselineMetrics(k, n)`
return a result for every `k`, with no access out of bounds. -/
theorem index_safety (dev : String) (S0 : NetDevStats) (ticks : List (Int × Option NetDevStats))
    (hticks : ∀ tk ∈ ticks, 0 ≤ tk.1 ∧ ∃ S : NetDevStats, tk.2 = some S) :
    ∃ s0 s : Store,
      prime dev (some S0) initStore = some s0 ∧ runLoop dev ticks s0 = some s ∧
      (0 ≤ s.sec ∧ s.sec < window) ∧
      ∀ n : Int, 0 < n → n < window →
        (∀ j : Int, s.sec - n ≤ j → j < s.sec →
          0 ≤ j + window ∧
          (0 ≤ Int.tmod (j + window) window ∧ Int.tmod (j + window) window < window) ∧
          0 ≤ j - 1 + window ∧
          (0 ≤ Int.tmod (j - 1 + window) window ∧ Int.tmod (j - 1 + window) window < window) ∧
          (∃ stat, readSlot s.stats (Int.tmod (j + window) window) = some stat) ∧
          (∃ stat, readSlot s.stats (Int.tmod (j - 1 + window) window) = some stat)) ∧
        (∃ out : String, rawMetrics s n = some out) ∧
        (∀ k : Int, ∃ out : String, baselineMetrics s k n = some out) := by
  have hw : window = 300 := rfl
  obtain ⟨s0, hp, _, hsec0⟩ := prime_eq dev S0 initStore
  have hs0 : 0 ≤ s0.sec ∧ s0.sec < window := by
    rw [hsec0]
    decide
  obtain ⟨s, hr, hs⟩ := runLoop_total dev ticks s0 hticks hs0
  refine ⟨s0, s, hp, hr, hs, ?_⟩
  intro n hn0 hn1
  refine ⟨?_, ?_, ?_⟩
  · intro j hj1 hj2
    have hx : Int.tmod (j + window) window = j % window := tmod_window j (by omega)
    have hpx : Int.tmod (j - 1 + window) window = (j - 1) % window :=
      tmod_window (j - 1) (by omega)
    have hb : ∀ y : Int, 0 ≤ y % window ∧ y % window < window := by
      intro y
      rw [hw]
      omega
    refine ⟨by omega, ?_, by omega, ?_, ?_, ?_⟩
    · rw [hx]
      exact hb j
    · rw [hpx]
      exact hb (j - 1)
    · rw [hx]
      exact ⟨_, if_pos (hb j)⟩
    · rw [hpx]
      exact ⟨_, if_pos (hb (j - 1))⟩
  · exact ⟨_, rawMetrics_eq_join s n hs ⟨hn0, hn1⟩⟩
  · intro k
    obtain ⟨r, hr2⟩ := baselineMetrics_some s k n hs ⟨hn0, hn1⟩
    exact ⟨_, hr2⟩

/-- C17, instance: one tick at second 299 brings the cursor to 0; the queries with
`n = W - 1 = 299` return a result. -/
theorem index_safety_witness :
    (∀ tk ∈ [((299 : Int), some noDevices)], 0 ≤ tk.1 ∧ ∃ S : NetDevStats, tk.2 = some S) ∧
    ∃ s0 s : Store,
      prime "wlan0" (some noDevices) initStore = some s0 ∧
      runLoop "wlan0" [((299 : Int), some noDevices)] s0 = some s ∧
      (∃ out : String, rawMetrics s 299 = some out) ∧
      (∃ out : String, baselineMetrics s 100 299 = some out) := by
  have hticks : ∀ tk ∈ [((299 : Int), some noDevices)],
      0 ≤ tk.1 ∧ ∃ S : NetDevStats, tk.2 = some S := by
    intro tk htk
    rw [List.mem_singleton] at htk
    rw [htk]
    exact ⟨by decide, noDevices, rfl⟩
  obtain ⟨s0, s, h1, h2, _, h4⟩ := index_safety "wlan0" noDevices _ hticks
  obtain ⟨_, h5, h6⟩ := h4 299 (by decide) (by decide)
  exact ⟨hticks, s0, s, h1, h2, h5, h6 100⟩

/-! ## Statistics adapter -/

theorem parseNetlinkStats_eq (links : List LinkMessage) (filter : DeviceFilter)
    (name : String) :
    parseNetlinkStats links filter name =
      if filter.ignored name = true then none
      else ((links.filter (fun l => decide (l.Attributes.Name = name))).getLast?).map
        (fun msg => statsEntry msg.Attributes.Stats64) := by
  induction links using List.reverseRecOn with
  | nil =>
    unfold parseNetlinkStats
    simp
  | append_singleton l a ih =>
    have hstep : parseNetlinkStats (l ++ [a]) filter name =
        if filter.ignored a.Attributes.Name = true then parseNetlinkStats l filter name
        else if name = a.Attributes.Name then some (statsEntry a.Attributes.Stats64)
        else parseNetlinkStats l filter name := by
      unfold parseNetlinkStats
      rw [List.foldl_append]
      simp only [List.foldl_cons, List.foldl_nil]
      split <;> rfl
    rw [hstep, ih, List.filter_append]
    by_cases hname : a.Attributes.Name = name
    · subst hname
      by_cases hig : filter.ignored a.Attributes.Name = true
      · simp [hig]
      · simp [hig, List.getLast?_concat]
    · have hne : ¬ name = a.Attributes.Name := fun h => hname h.symm
      by_cases hig : filter.ignored a.Attributes.Name = true
      · simp [hig, hname]
      · simp [hig, hname, hne]

/-- C18: the mapping returned by `parseNetlinkStats` has an entry for a device name if and
only if some link in the list has that name and `filter.ignored(name)` is false, and in
that entry `receive_bytes` and `transmit_bytes` are the `RXBytes` and `TXBytes` of the last
link in the list with that name. -/
theorem parseNetlinkStats_entries (links : List LinkMessage) (filter : DeviceFilter)
    (name : String) :
    ((∃ m, parseNetlinkStats links filter name = some m) ↔
      ((∃ msg ∈ links, msg.Attributes.Name = name) ∧ filter.ignored name = false)) ∧
    (∀ msg : LinkMessage,
      (links.filter (fun l => decide (l.Attributes.Name = name))).getLast? = some msg →
      filter.ignored name = false →
      ∃ m, parseNetlinkStats links filter name = some m ∧
        m "receive_bytes" = some msg.Attributes.Stats64.RXBytes ∧
        m "transmit_bytes" = some msg.Attributes.Stats64.TXBytes ∧
        lookupStat (parseNetlinkStats links filter) name "receive_bytes"
          = msg.Attributes.Stats64.RXBytes ∧
        lookupStat (parseNetlinkStats links filter) name "transmit_bytes"
          = msg.Attributes.Stats64.TXBytes) := by
  have key := parseNetlinkStats_eq links filter name
  constructor
  · rw [key]
    constructor
    · rintro ⟨m, hm⟩
      by_cases hig : filter.ignored name = true
      · simp [hig] at hm
      · cases hlast : (links.filter (fun l => decide (l.Attributes.Name = name))).getLast? with
        | none => simp [hig, hlast] at hm
        | some msg =>
          have hmem := List.mem_of_getLast?_eq_some hlast
          rw [List.mem_filter] at hmem
          exact ⟨⟨msg, hmem.1, by simpa using hmem.2⟩, by simpa using hig⟩
    · rintro ⟨⟨msg, hmem, hname⟩, hig⟩
      have hne : links.filter (fun l => decide (l.Attributes.Name = name)) ≠ [] := by
        intro h
        have : msg ∈ links.filter (fun l => decide (l.Attributes.Name = name)) := by
          rw [List.mem_filter]
          exact ⟨hmem, by simpa using hname⟩
        rw [h] at this
        simp at this
      obtain ⟨last, hlast⟩ := Option.isSome_iff_exists.mp (List.getLast?_isSome.mpr hne)
      exact ⟨statsEntry last.Attributes.Stats64, by simp [hig, hlast]⟩
  · intro msg hlast hig
    have hentry : parseNetlinkStats links filter name
        = some (statsEntry msg.Attributes.Stats64) := by
      rw [key, hlast]
      simp [hig]
    refine ⟨_, hentry, rfl, rfl, ?_, ?_⟩
    · unfold lookupStat
      rw [hentry]
      rfl
    · unfold lookupStat
      rw [hentry]
      rfl

/-- C18, instance: of the two `eth0` messages the last one provides the entry. -/
theorem parseNetlinkStats_entries_witness :
    lookupStat (parseNetlinkStats exampleLinks ⟨none, none⟩) "eth0" "receive_bytes" = 30 ∧
    lookupStat (parseNetlinkStats exampleLinks ⟨none, none⟩) "eth0" "transmit_bytes" = 40 := by
  obtain ⟨_, h⟩ := parseNetlinkStats_entries exampleLinks ⟨none, none⟩ "eth0"
  obtain ⟨_, _, _, _, h1, h2⟩ := h exampleLastEth0 rfl rfl
  exact ⟨h1, h2⟩

/-! ## Gap-free sampling -/

theorem window_list (D : Int → Int) (hD : ∀ z : Int, z < 0 → D z = 0) (N m : Nat) :
    (List.range N).map (fun (i : Nat) => D ((m : Int) - (N : Int) + (i : Int)))
      = List.replicate (N - m) 0
        ++ ((List.range m).map (fun (i : Nat) => D (i : Int))).drop (m - N) := by
  apply List.ext_getElem?
  intro i
  rw [List.getElem?_map]
  by_cases h1 : i < N - m
  · rw [List.getElem?_append_left (by simpa using h1), List.getElem?_replicate_of_lt h1,
      List.getElem?_range (by omega)]
    simp only [Option.map_some']
    rw [hD _ (by omega)]
  · by_cases h2 : i < N
    · rw [List.getElem?_append_right (by simpa using h1), List.getElem?_drop,
        List.getElem?_map, List.length_replicate, List.getElem?_range h2,
        List.getElem?_range (by omega)]
      simp only [Option.map_some']
      congr 2
      omega
    · rw [List.getElem?_append_right (by simpa using h1), List.getElem?_drop,
        List.getElem?_map, List.length_replicate]
      rw [List.getElem?_eq_none (by simpa using h2), List.getElem?_eq_none (by simp; omega)]
      rfl

theorem telescope_sum (f : Nat → Int) (m : Nat) :
    ((List.range m).map (fun (i : Nat) => f (i + 1) - f i)).sum = f m - f 0 := by
  induction m with
  | zero => simp
  | succ m ih =>
    rw [List.range_succ, List.map_append, List.sum_append, ih]
    simp

theorem excess_sum_bounds (t : Int) (ht : 0 ≤ t) (l : List Int) (hl : ∀ d ∈ l, 0 ≤ d) :
    0 ≤ ((l.filter (fun d => decide (t < d))).map (fun d => d - t)).sum ∧
    ((l.filter (fun d => decide (t < d))).map (fun d => d - t)).sum ≤ l.sum := by
  induction l with
  | nil => simp
  | cons d l ih =>
    have h1 := ih (fun x hx => hl x (List.mem_cons_of_mem d hx))
    have h0 := hl d (List.mem_cons_self d l)
    by_cases c : t < d
    · rw [List.filter_cons_of_pos (by simpa using c)]
      simp only [List.map_cons, List.sum_cons]
      omega
    · rw [List.filter_cons_of_neg (by simpa using c)]
      simp only [List.sum_cons]
      omega

theorem sum_drop_le (l : List Int) (hl : ∀ d ∈ l, 0 ≤ d) (k : Nat) :
    (l.drop k).sum ≤ l.sum ∧ ∀ d ∈ l.drop k, 0 ≤ d := by
  constructor
  · have h := List.sum_take_add_sum_drop l k
    have h0 : 0 ≤ (l.take k).sum :=
      List.sum_nonneg (fun d hd => hl d (List.mem_of_mem_take hd))
    omega
  · intro d hd
    exact hl d (List.mem_of_mem_drop hd)

theorem snapAt_succ (S0 : NetDevStats) (fetches : List NetDevStats) (i : Nat)
    (f : NetDevStats) (h : fetches[i]? = some f) : snapAt S0 fetches (i + 1) = f := by
  unfold snapAt
  simp [h]

theorem run_slot_content (dev : String) (S0 : NetDevStats) (fetches : List NetDevStats)
    (t0 : Int) (st : Nat → Nat → Nat)
    (hst : ∀ j : Nat, (j : Int) < window →
      st j 0 = lookupStat S0 dev "receive_bytes" ∧ st j 1 = lookupStat S0 dev "transmit_bytes")
    (z : Int) (hz1 : (fetches.length : Int) - window ≤ z) (hz2 : z < (fetches.length : Int)) :
    runStats dev t0 fetches st ((t0 + z) % window).toNat 0
        = lookupStat (snapAt S0 fetches (z + 1).toNat) dev "receive_bytes" ∧
    runStats dev t0 fetches st ((t0 + z) % window).toNat 1
        = lookupStat (snapAt S0 fetches (z + 1).toNat) dev "transmit_bytes" := by
  have hw : window = 300 := rfl
  by_cases hz : 0 ≤ z
  · obtain ⟨i, rfl⟩ := Int.eq_ofNat_of_zero_le hz
    have hi : i < fetches.length := by omega
    have hget : fetches[i]? = some fetches[i] := List.getElem?_eq_getElem hi
    have hsnap : snapAt S0 fetches ((i : Int) + 1).toNat = fetches[i] := by
      have e : ((i : Int) + 1).toNat = i + 1 := by omega
      rw [e]
      exact snapAt_succ S0 fetches i _ hget
    rw [hsnap]
    exact runStats_last_write dev fetches t0 st i _ hget (by
      intro i2 h1 h2
      rw [hw]
      rw [hw] at hz1
      omega)
  · have hsnap : snapAt S0 fetches (z + 1).toNat = S0 := by
      have e : (z + 1).toNat = 0 := by omega
      rw [e]
      rfl
    rw [hsnap]
    have hun : ∀ k : Nat, runStats dev t0 fetches st ((t0 + z) % window).toNat k
        = st ((t0 + z) % window).toNat k := by
      intro k
      apply runStats_unchanged
      intro i hi
      rw [hw]
      rw [hw] at hz1
      omega
    rw [hun 0, hun 1]
    exact hst _ (by rw [hw]; omega)

theorem window_gradient (dev : String) (S0 : NetDevStats) (fetches : List NetDevStats)
    (t0 : Int) (s1 : Store) (st : Nat → Nat → Nat)
    (hst : ∀ j : Nat, (j : Int) < window →
      st j 0 = lookupStat S0 dev "receive_bytes" ∧ st j 1 = lookupStat S0 dev "transmit_bytes")
    (hstats : s1.stats = runStats dev t0 fetches st)
    (hmono : ∀ k : Nat, k < fetches.length →
      lookupStat (snapAt S0 fetches k) dev "receive_bytes"
        ≤ lookupStat (snapAt S0 fetches (k + 1)) dev "receive_bytes" ∧
      lookupStat (snapAt S0 fetches k) dev "transmit_bytes"
        ≤ lookupStat (snapAt S0 fetches (k + 1)) dev "transmit_bytes")
    (hsum : ∀ k : Nat, k ≤ fetches.length → snapSum (snapAt S0 fetches k) dev < u64Mod)
    (z j : Int) (hz1 : (fetches.length : Int) - window + 1 ≤ z)
    (hz2 : z < (fetches.length : Int)) (hj : j % window = (t0 + z) % window) :
    specGradient s1 j = (snapSum (snapAt S0 fetches (z + 1).toNat) dev : Int)
      - (snapSum (snapAt S0 fetches z.toNat) dev : Int) := by
  have hw : window = 300 := rfl
  have hjp : (j - 1) % window = (t0 + (z - 1)) % window := by
    rw [hw] at hj ⊢
    omega
  have hc := run_slot_content dev S0 fetches t0 st hst z (by omega) hz2
  have hp := run_slot_content dev S0 fetches t0 st hst (z - 1) (by omega) (by omega)
  have e : (z - 1 + 1).toNat = z.toNat := by
    congr 1
    omega
  rw [e] at hp
  have hle : lookupStat (snapAt S0 fetches z.toNat) dev "receive_bytes"
        ≤ lookupStat (snapAt S0 fetches (z + 1).toNat) dev "receive_bytes" ∧
      lookupStat (snapAt S0 fetches z.toNat) dev "transmit_bytes"
        ≤ lookupStat (snapAt S0 fetches (z + 1).toNat) dev "transmit_bytes" := by
    by_cases hz : 0 ≤ z
    · have h := hmono z.toNat (by omega)
      rw [show (z + 1).toNat = z.toNat + 1 by omega]
      exact h
    · rw [show (z + 1).toNat = 0 by omega, show z.toNat = 0 by omega]
      exact ⟨le_refl _, le_refl _⟩
  have hlt := hsum (z + 1).toNat (by omega)
  unfold specGradient
  rw [snapshotSum_eq, snapshotSum_eq, hj, hjp, hstats, hc.1, hc.2, hp.1, hp.2]
  unfold snapSum u64Mod at hlt ⊢
  push_cast
  omega

theorem snapDiffs_nonneg (dev : String) (S0 : NetDevStats) (fetches : List NetDevStats)
    (hmono : ∀ k : Nat, k < fetches.length →
      lookupStat (snapAt S0 fetches k) dev "receive_bytes"
        ≤ lookupStat (snapAt S0 fetches (k + 1)) dev "receive_bytes" ∧
      lookupStat (snapAt S0 fetches k) dev "transmit_bytes"
        ≤ lookupStat (snapAt S0 fetches (k + 1)) dev "transmit_bytes") :
    ∀ d ∈ snapDiffs dev S0 fetches, 0 ≤ d := by
  intro d hd
  unfold snapDiffs at hd
  obtain ⟨i, hi, rfl⟩ := List.mem_map.mp hd
  rw [List.mem_range] at hi
  have h := hmono i hi
  unfold snapSum
  push_cast
  omega

theorem gap_free_core (dev : String) (S0 : NetDevStats) (fetches : List NetDevStats)
    (t0 n t : Int) (s1 : Store) (st : Nat → Nat → Nat)
    (hst : ∀ j : Nat, (j : Int) < window →
      st j 0 = lookupStat S0 dev "receive_bytes" ∧ st j 1 = lookupStat S0 dev "transmit_bytes")
    (hstats : s1.stats = runStats dev t0 fetches st)
    (hsec : s1.sec = (t0 + (fetches.length : Int)) % window)
    (hn : 0 < n ∧ n < window) (ht : 0 ≤ t) (ht2 : t < 9223372036854775808)
    (hmono : ∀ k : Nat, k < fetches.length →
      lookupStat (snapAt S0 fetches k) dev "receive_bytes"
        ≤ lookupStat (snapAt S0 fetches (k + 1)) dev "receive_bytes" ∧
      lookupStat (snapAt S0 fetches k) dev "transmit_bytes"
        ≤ lookupStat (snapAt S0 fetches (k + 1)) dev "transmit_bytes")
    (hsum : ∀ k : Nat, k ≤ fetches.length → snapSum (snapAt S0 fetches k) dev < u64Mod) :
    baselineAgg s1 t n = some
      (((recentDiffs dev S0 fetches n).filter (fun d => decide (t < d))).length,
       (((recentDiffs dev S0 fetches n).filter (fun d => decide (t < d))).map
          (fun d => d - t)).sum.toNat) ∧
    (forRange (s1.sec - n) s1.sec).map (specGradient s1)
      = List.replicate (n.toNat - fetches.length) 0 ++ recentDiffs dev S0 fetches n := by
  have hw : window = 300 := rfl
  have hb : 0 ≤ s1.sec ∧ s1.sec < window := by
    rw [hsec, hw]
    omega
  have hfr := forRange_eq_map (s1.sec - n) n.toNat
  rw [show s1.sec - n + ((n.toNat : Nat) : Int) = s1.sec by omega] at hfr
  have hG : (forRange (s1.sec - n) s1.sec).map (specGradient s1)
      = List.replicate (n.toNat - fetches.length) 0 ++ recentDiffs dev S0 fetches n := by
    have hwl := window_list
      (fun z => (snapSum (snapAt S0 fetches (z + 1).toNat) dev : Int)
        - (snapSum (snapAt S0 fetches z.toNat) dev : Int))
      (by
        intro z hz
        show (snapSum (snapAt S0 fetches (z + 1).toNat) dev : Int)
          - (snapSum (snapAt S0 fetches z.toNat) dev : Int) = 0
        rw [show (z + 1).toNat = 0 by omega, show z.toNat = 0 by omega]
        omega)
      n.toNat fetches.length
    have hright : (List.range fetches.length).map (fun (i : Nat) =>
        (fun z : Int => (snapSum (snapAt S0 fetches (z + 1).toNat) dev : Int)
          - (snapSum (snapAt S0 fetches z.toNat) dev : Int)) (i : Int))
        = snapDiffs dev S0 fetches := by
      unfold snapDiffs
      apply List.map_congr_left
      intro i _
      show (snapSum (snapAt S0 fetches ((i : Int) + 1).toNat) dev : Int)
          - (snapSum (snapAt S0 fetches ((i : Int)).toNat) dev : Int) = _
      rw [show ((i : Int) + 1).toNat = i + 1 by omega, show ((i : Int)).toNat = i by omega]
    rw [hright] at hwl
    unfold recentDiffs
    rw [← hwl, hfr, List.map_map]
    apply List.map_congr_left
    intro i hi
    rw [List.mem_range] at hi
    show specGradient s1 (s1.sec - n + (i : Int)) = _
    rw [window_gradient dev S0 fetches t0 s1 st hst hstats hmono hsum
      ((fetches.length : Int) - (n.toNat : Int) + (i : Int)) (s1.sec - n + (i : Int))
      (by rw [hw]; rw [hw] at hn; omega) (by omega)
      (by rw [hsec, hw]; rw [hw] at hn; omega)]
  refine ⟨?_, hG⟩
  have hfilter : (specExceeding s1 t n).map (specGradient s1)
      = (recentDiffs dev S0 fetches n).filter (fun d => decide (t < d)) := by
    have h1 : ((forRange (s1.sec - n) s1.sec).map (specGradient s1)).filter
        (fun d => decide (t < d)) = (specExceeding s1 t n).map (specGradient s1) := by
      rw [List.filter_map]
      rfl
    rw [← h1, hG, List.filter_append, List.filter_replicate_of_neg (by simpa using ht)]
    rfl
  have hnn := snapDiffs_nonneg dev S0 fetches hmono
  have hdrop := sum_drop_le (snapDiffs dev S0 fetches) hnn (fetches.length - n.toNat)
  have hex := excess_sum_bounds t ht (recentDiffs dev S0 fetches n) hdrop.2
  have htel := telescope_sum (fun k => (snapSum (snapAt S0 fetches k) dev : Int)) fetches.length
  have hm := hsum fetches.length (le_refl _)
  have hcount : specCount s1 t n
      = ((recentDiffs dev S0 fetches n).filter (fun d => decide (t < d))).length := by
    unfold specCount
    rw [← hfilter, List.length_map]
  have harea : specArea s1 t n
      = (((recentDiffs dev S0 fetches n).filter (fun d => decide (t < d))).map
          (fun d => d - t)).sum % (u64Mod : Int) := by
    unfold specArea
    rw [← hfilter, List.map_map]
    rfl
  rw [baselineAgg_eq s1 t n hb hn ht ht2, hcount, harea]
  congr 2
  have hs : (snapDiffs dev S0 fetches).sum
      = (snapSum (snapAt S0 fetches fetches.length) dev : Int)
        - (snapSum (snapAt S0 fetches 0) dev : Int) := htel
  have h1 := hdrop.1
  have h2 := hex.1
  have h3 := hex.2
  unfold recentDiffs at h2 h3 ⊢
  rw [hs] at h1
  unfold u64Mod at hm ⊢
  generalize (List.map (fun d => d - t) (List.filter (fun d => decide (t < d))
    (List.drop (fetches.length - n.toNat) (snapDiffs dev S0 fetches)))).sum = A at h2 h3 ⊢
  generalize (List.drop (fetches.length - n.toNat) (snapDiffs dev S0 fetches)).sum = B at h1 h3
  congr 1
  omega

/-- C19: after priming with `s_0` and `m >= 0` ticks at consecutive seconds with the
snapshots `s_1, ..., s_m`, every counter non-decreasing along the run and every counter sum
below `2^64`, for `0 < n < W` and a threshold `t >= 0` (an `int`, so below `2^63`):
`above_baseline_count` is the number of `k` with `max(1, m - n + 1) <= k <= m` whose exact
difference `sum(s_k) - sum(s_{k-1})` exceeds `t`, `above_baseline_area_sum` is the sum of
these differences minus `t`, no difference is negative, and the gradients of the window
are these differences preceded by a 0 for every slot that still holds the primed value. -/
theorem gap_free_no_spikes (dev : String) (S0 : NetDevStats) (fetches : List NetDevStats)
    (t0 n t : Int) (ht0 : 0 ≤ t0) (hn : 0 < n ∧ n < window) (ht : 0 ≤ t)
    (ht2 : t < 9223372036854775808)
    (hmono : ∀ k : Nat, k < fetches.length →
      lookupStat (snapAt S0 fetches k) dev "receive_bytes"
        ≤ lookupStat (snapAt S0 fetches (k + 1)) dev "receive_bytes" ∧
      lookupStat (snapAt S0 fetches k) dev "transmit_bytes"
        ≤ lookupStat (snapAt S0 fetches (k + 1)) dev "transmit_bytes")
    (hsum : ∀ k : Nat, k ≤ fetches.length → snapSum (snapAt S0 fetches k) dev < u64Mod) :
    ∃ s0 s1 : Store,
      prime dev (some S0) initStore = some s0 ∧
      runLoop dev (consecutiveTicks t0 fetches) s0 = some s1 ∧
      baselineAgg s1 t n = some
        (((recentDiffs dev S0 fetches n).filter (fun d => decide (t < d))).length,
         (((recentDiffs dev S0 fetches n).filter (fun d => decide (t < d))).map
            (fun d => d - t)).sum.toNat) ∧
      (forRange (s1.sec - n) s1.sec).map (specGradient s1)
        = List.replicate (n.toNat - fetches.length) 0 ++ recentDiffs dev S0 fetches n ∧
      (∀ d ∈ snapDiffs dev S0 fetches, 0 ≤ d) := by
  obtain ⟨s0, hp, hslots, hsec0⟩ := prime_eq dev S0 initStore
  obtain ⟨s1, hr, hst, hsec, hsecnil⟩ := runLoop_consecutive dev fetches t0 s0 ht0
  refine ⟨s0, s1, hp, hr, ?_⟩
  have hnn := snapDiffs_nonneg dev S0 fetches hmono
  by_cases hne : fetches = []
  · subst hne
    have hs1 : s1.sec = (0 + ((([] : List NetDevStats).length : Nat) : Int)) % window := by
      rw [hsecnil rfl, hsec0]
      rfl
    have hcore := gap_free_core dev S0 [] 0 n t s1 s0.stats hslots hst hs1 hn ht ht2
      hmono hsum
    exact ⟨hcore.1, hcore.2, hnn⟩
  · have hcore := gap_free_core dev S0 fetches t0 n t s1 s0.stats hslots hst (hsec hne) hn ht
      ht2 hmono hsum
    exact ⟨hcore.1, hcore.2, hnn⟩

/-- C19, instance: priming with `(100, 100)`, then three ticks from second 298 with
`(150, 100)`, `(150, 400)`, `(200, 400)`; with `n = 5` and threshold 40 the three
differences 50, 300, 50 are counted and the two primed slots add nothing. -/
theorem gap_free_no_spikes_witness :
    (0 : Int) ≤ 298 ∧ ((0 : Int) < 5 ∧ (5 : Int) < window) ∧
    ((0 : Int) ≤ 40 ∧ (40 : Int) < 9223372036854775808) ∧
    ∃ s0 s1 : Store,
      prime "wlan0" (some (singleDevice "wlan0" 100 100)) initStore = some s0 ∧
      runLoop "wlan0" (consecutiveTicks 298 (growingFetches "wlan0")) s0 = some s1 ∧
      baselineAgg s1 40 5 = some (3, 280) ∧
      (forRange (s1.sec - 5) s1.sec).map (specGradient s1) = [0, 0, 50, 300, 50] := by
  have hlen : (growingFetches "wlan0").length = 3 := rfl
  obtain ⟨s0, s1, h1, h2, h3, h4, _⟩ :=
    gap_free_no_spikes "wlan0" (singleDevice "wlan0" 100 100) (growingFetches "wlan0")
      298 5 40 (by decide) (by decide) (by decide) (by decide)
      (by
        intro k hk
        rw [hlen] at hk
        interval_cases k <;> decide)
      (by
        intro k hk
        rw [hlen] at hk
        interval_cases k <;> decide)
  exact ⟨by decide, by decide, by decide, s0, s1, h1, h2, h3.trans (by decide),
    h4.trans (by decide)⟩

end NetMon
